import Mathlib

/-!
Verification development for the ua-aid-scraper pipeline (src/task_urap.py).

Python floats are modelled as rationals (ℚ), Python strings as `String` /
`List Char` with ASCII case conventions (the texts handled by the claims are
ASCII).  Python `re` patterns are embedded as an abstract syntax tree and run
by a backtracking matcher that reproduces CPython's leftmost,
first-alternative, greedy-with-backtracking semantics.  External
collaborators (live FX lookup, dateparser, BeautifulSoup, the network) are
modelled as explicit parameters or, where the spec fixes their behaviour, by
the static fallbacks the source itself contains.
-/

set_option maxRecDepth 4000

/-- Python `str.count` for a single character. -/
def countc (c : Char) (s : List Char) : Nat :=
  (s.filter (fun x => x = c)).length

/-- Auxiliary loop of Python `str.rfind`: carries the running index and the
last index seen so far (or -1). -/
def rfindAux (c : Char) : List Char → Int → Int → Int
  | [], _, acc => acc
  | x :: xs, i, acc => rfindAux c xs (i + 1) (if x = c then i else acc)

/-- Python `str.rfind`: index of the last occurrence of `c`, or -1. -/
def rfindIdx (c : Char) (s : List Char) : Int :=
  rfindAux c s 0 (-1)

/-- Numeric value of a list of ASCII digits (most significant first). -/
def natOfDigits (l : List Char) : Nat :=
  l.foldl (fun a c => 10 * a + (c.toNat - 48)) 0

/-- Python `float` on the strings reachable here: optional integer digits,
optionally a dot and fractional digits; at least one digit overall.
`none` models a `ValueError`. -/
def pyFloat (s : List Char) : Option ℚ :=
  let ip := s.takeWhile Char.isDigit
  let r := s.drop ip.length
  match r with
  | [] => if ip.isEmpty then none else some (natOfDigits ip)
  | '.' :: f =>
      if f.all Char.isDigit ∧ (ip ≠ [] ∨ f ≠ []) then
        some ((natOfDigits ip : ℚ) + (natOfDigits f : ℚ) / 10 ^ f.length)
      else none
  | _ => none

/-- Separator normalisation of `_to_float` (src lines 195-202): drop spaces;
with both separators present the one occurring last becomes the decimal
point; otherwise commas are dropped as thousands separators. -/
def toFloatClean (num : List Char) : List Char :=
  let s := num.filter (fun c => c ≠ ' ')
  if 0 < countc ',' s ∧ 0 < countc '.' s then
    if rfindIdx '.' s < rfindIdx ',' s then
      (s.filter (fun c => c ≠ '.')).map (fun c => if c = ',' then '.' else c)
    else
      s.filter (fun c => c ≠ ',')
  else
    s.filter (fun c => c ≠ ',')

/-- `_to_float` with the exception made explicit: `none` is the case in which
both `float` calls raise, which propagates a `ValueError` out of
`_to_float` in the source. -/
def to_floatE (num : List Char) : Option ℚ :=
  let s := toFloatClean num
  match pyFloat s with
  | some v => some v
  | none =>
      let t := s.filter (fun c => c.isDigit ∨ c = '.')
      if t.isEmpty then some 0 else pyFloat t

/-- Totalized `_to_float` (src lines 194-206), collapsing the exception
case of `to_floatE` to 0.  The exception is real and reachable — the
numeral grammars can produce strings such as "1.234,567.89" on which both
`float` calls raise — so the exception-aware `to_floatE` is the
authoritative embedding and drives the extraction pipeline; this wrapper
serves only call sites whose theorems evaluate them at concrete,
exception-free inputs. -/
def to_float (num : List Char) : ℚ :=
  (to_floatE num).getD 0

/-- Python `int` truncation of a non-negative rational, as used for
quantities. -/
def pyIntOf (q : ℚ) : Nat :=
  q.floor.toNat

/-- ASCII lower-casing of a string, modelling Python `str.lower` on the
ASCII texts in scope. -/
def lowerS (s : List Char) : List Char :=
  s.map Char.toLower

/-- ASCII upper-casing, modelling Python `str.upper`. -/
def upperS (s : List Char) : List Char :=
  s.map Char.toUpper

/-- Python whitespace test (`\s` and `str.strip`). -/
def isPyWs (c : Char) : Bool :=
  c = ' ' || c = '\t' || c = '\n' || c = '\r' || c = '\x0b' || c = '\x0c'

/-- Python `str.strip`. -/
def pyStrip (s : List Char) : List Char :=
  (s.dropWhile isPyWs).reverse.dropWhile isPyWs |>.reverse

/-- Python `str.strip` with an explicit character to remove, as in
`strip(".")`. -/
def pyStripChar (c : Char) (s : List Char) : List Char :=
  (s.dropWhile (fun x => x = c)).reverse.dropWhile (fun x => x = c) |>.reverse

/-- Python substring test `needle in hay`. -/
def strIn : List Char → List Char → Bool
  | n, [] => n.isEmpty
  | n, c :: t => n.isPrefixOf (c :: t) || strIn n t

/-- Python first-occurrence deduplication (the `uniq` loops and
`dict.fromkeys`). -/
def pyUniq {α : Type} [DecidableEq α] : List α → List α :=
  go []
where
  go (acc : List α) : List α → List α
    | [] => acc
    | x :: xs => go (if x ∈ acc then acc else acc ++ [x]) xs

/-- The depreciation arithmetic of `auto_enrich_military` (src lines
1029-1032): back-calculated production year, years used, straight-line
annual amount, floor at zero. -/
def stockpileDepreciation (base : ℚ) (life : Nat) (sendYear : Int) : ℚ :=
  let lifeOr1 : Nat := if life = 0 then 1 else life
  let prodYear : Int := sendYear - (min (max 1 (lifeOr1 / 2)) 12 : Nat)
  let yearsUsed : Int := max 0 (sendYear - prodYear)
  let annual : ℚ := base / (lifeOr1 : ℚ)
  max 0 (base - annual * (yearsUsed : ℚ))

/-- The final-value computation of `auto_enrich_military` (src lines
1021-1034) as a function: `none` means the Final Depreciated Value cell is
left untouched (base not positive).  The empty source-type string is
replaced by "unknown" exactly as `row.get("Source Type") or "unknown"`
does; `sendYear = none` models the failed `int(...)` parse. -/
def depreciateStep (base : ℚ) (life : Nat) (srcType : String)
    (sendYear : Option Int) : Option ℚ :=
  if 0 < base then
    some (match sendYear with
      | some y =>
          if (if srcType = "" then "unknown" else srcType) = "stockpile" then
            stockpileDepreciation base life y
          else base
      | none => base)
  else none

/-- The per-row final-value computation of `_build_rows_from_web` (src lines
1092-1096): no year parse, years used fixed at `max 1 ((life or 1) // 2)`. -/
def webFinal (base : ℚ) (life : Nat) (srcType : String) : ℚ :=
  let lifeOr1 : Nat := if life = 0 then 1 else life
  if base ≠ 0 ∧ srcType = "stockpile" then
    max 0 (base - (base / (lifeOr1 : ℚ)) * (max 1 (lifeOr1 / 2) : Nat))
  else base

/-- The depreciation formula exactly as claim C3 words it, with the annual
amount `base_value / useful_life` (division by a zero useful life is the
rational-number convention `x / 0 = 0`). -/
def claimDepreciationC3 (base : ℚ) (life : Nat) (sendYear : Int) : ℚ :=
  let prodYear : Int := sendYear - (min (max 1 (life / 2)) 12 : Nat)
  let yearsUsed : Int := sendYear - prodYear
  let annual : ℚ := base / (life : ℚ)
  max 0 (base - annual * (yearsUsed : ℚ))

/-!
A backtracking regular-expression engine mirroring CPython `re`: leftmost
match, alternatives in written order, greedy quantifiers with backtracking.
Character classes are Boolean predicates; `group` records a numbered capture
on the successful path; `wb` is the zero-width `\b` assertion (the matcher
threads the previous character for it).  Bounded repetition of a character
class (`repc`) and its unbounded form (`starc`) try the longest run first.
`star` handles starred groups and is driven by fuel; every starred body in
the source consumes at least one character so the fuel below never runs out
on the evaluated inputs.
-/

inductive RE : Type where
  | eps : RE
  | pred : (Char → Bool) → RE
  | seq : RE → RE → RE
  | alt : RE → RE → RE
  | opt : RE → RE
  | star : RE → RE
  | repc : (Char → Bool) → Nat → Nat → RE
  | starc : (Char → Bool) → RE
  | group : Nat → RE → RE
  | wb : RE

/-- Captures accumulated on a successful path, most recent first. -/
abbrev Caps := List (Nat × List Char)

/-- Length of the maximal prefix run satisfying `p`. -/
def runLen (p : Char → Bool) : List Char → Nat
  | [] => 0
  | c :: cs => if p c then runLen p cs + 1 else 0

/-- Previous character after consuming `i` characters of `s`, given the
character preceding `s`. -/
def prevAt (prev : Option Char) (s : List Char) (i : Nat) : Option Char :=
  if i = 0 then prev else s.get? (i - 1)

/-- Python `\w` (ASCII model), used by the `\b` assertion. -/
def isWordChar (c : Char) : Bool :=
  c.isAlphanum || c = '_'

/-- Greedy backtracking over a character-class repetition: try consuming
`i` characters, then `i-1`, …, down to `mn`. -/
def repTry {α : Type} (prev : Option Char) (s : List Char) (caps : Caps)
    (k : Option Char → List Char → Caps → Option α) (mn : Nat) :
    Nat → Option α
  | 0 => if mn = 0 then k prev s caps else none
  | i + 1 =>
      if mn ≤ i + 1 then
        (k (prevAt prev s (i + 1)) (s.drop (i + 1)) caps).orElse
          (fun _ => repTry prev s caps k mn i)
      else none

/-- The matcher.  `fuel` decreases on every recursive call; with the fuel
supplied by `matchHere` it never runs out for the patterns and inputs used
here (each nesting level consumes one unit and each `star` iteration
consumes input). -/
def mat {α : Type} : Nat → RE → Option Char → List Char → Caps →
    (Option Char → List Char → Caps → Option α) → Option α
  | 0, _, _, _, _, _ => none
  | _ + 1, RE.eps, prev, s, caps, k => k prev s caps
  | _ + 1, RE.pred p, _, s, caps, k =>
      match s with
      | [] => none
      | c :: cs => if p c then k (some c) cs caps else none
  | fuel + 1, RE.seq a b, prev, s, caps, k =>
      mat fuel a prev s caps (fun p' s' c' => mat fuel b p' s' c' k)
  | fuel + 1, RE.alt a b, prev, s, caps, k =>
      (mat fuel a prev s caps k).orElse (fun _ => mat fuel b prev s caps k)
  | fuel + 1, RE.opt a, prev, s, caps, k =>
      (mat fuel a prev s caps k).orElse (fun _ => k prev s caps)
  | fuel + 1, RE.star a, prev, s, caps, k =>
      (mat fuel a prev s caps (fun p' s' c' =>
        if s'.length < s.length then mat fuel (RE.star a) p' s' c' k
        else k p' s' c')).orElse (fun _ => k prev s caps)
  | _ + 1, RE.repc p mn mx, prev, s, caps, k =>
      repTry prev s caps k mn (min mx (runLen p s))
  | _ + 1, RE.starc p, prev, s, caps, k =>
      repTry prev s caps k 0 (runLen p s)
  | fuel + 1, RE.group n a, prev, s, caps, k =>
      mat fuel a prev s caps (fun p' s' c' =>
        k p' s' ((n, s.take (s.length - s'.length)) :: c'))
  | _ + 1, RE.wb, prev, s, caps, k =>
      let pw := match prev with | some c => isWordChar c | none => false
      let nw := match s with | c :: _ => isWordChar c | [] => false
      if pw ≠ nw then k prev s caps else none

/-- Structural size of a pattern, used only to pick a generous fuel. -/
def reSize : RE → Nat
  | RE.eps => 1
  | RE.pred _ => 1
  | RE.seq a b => reSize a + reSize b + 1
  | RE.alt a b => reSize a + reSize b + 1
  | RE.opt a => reSize a + 1
  | RE.star a => reSize a + 1
  | RE.repc _ _ mx => mx + 2
  | RE.starc _ => 2
  | RE.group _ a => reSize a + 1
  | RE.wb => 1

/-- Match `r` at the start of `s` (given the preceding character); returns
the unconsumed rest and the captures. -/
def matchHere (r : RE) (prev : Option Char) (s : List Char) :
    Option (List Char × Caps) :=
  mat ((reSize r + 2) * (s.length + 2) * 2) r prev s []
    (fun _ rest caps => some (rest, caps))

/-- The loop of `re.finditer`: leftmost non-overlapping matches, advancing
one character after a failed or empty match.  Yields (span text, captures).
The patterns used here never match the empty string, so the empty-match
skip is unreachable. -/
def findIterAux (r : RE) : Nat → Option Char → List Char →
    List (List Char × Caps)
  | 0, _, _ => []
  | _ + 1, _, [] => []
  | fuel + 1, prev, s =>
      match matchHere r prev s with
      | some (rest, caps) =>
          let m := s.take (s.length - rest.length)
          if m.isEmpty then
            match s with
            | [] => []
            | c :: cs => findIterAux r fuel (some c) cs
          else (m, caps) :: findIterAux r fuel m.getLast? rest
      | none =>
          match s with
          | [] => []
          | c :: cs => findIterAux r fuel (some c) cs

/-- `re.finditer`. -/
def findIter (r : RE) (s : List Char) : List (List Char × Caps) :=
  findIterAux r (s.length + 1) none s

/-- `re.search`, returning the matched span and captures. -/
def reSearch (r : RE) (s : List Char) : Option (List Char × Caps) :=
  (findIter r s).head?

/-- `re.search` as a Boolean test. -/
def reTest (r : RE) (s : List Char) : Bool :=
  (reSearch r s).isSome

/-- Lookup of a numbered capture; `none` models an unmatched optional
group (`m.group(..) is None`). -/
def capGet (caps : Caps) (n : Nat) : Option (List Char) :=
  (caps.find? (fun p => p.1 = n)).map (fun p => p.2)

/-- A literal character matched case-insensitively (ASCII), for patterns
compiled with `re.IGNORECASE`. -/
def chC (c : Char) : RE :=
  RE.pred (fun x => x.toLower = c.toLower)

/-- A literal character matched exactly. -/
def chE (c : Char) : RE :=
  RE.pred (fun x => x = c)

/-- A case-insensitive literal word. -/
def litCI (w : String) : RE :=
  w.data.foldr (fun c r => RE.seq (chC c) r) RE.eps

/-- An exact literal word (patterns applied to already lower-cased text). -/
def litEx (w : String) : RE :=
  w.data.foldr (fun c r => RE.seq (chE c) r) RE.eps

/-- A pattern that never matches. -/
def reFail : RE :=
  RE.pred (fun _ => false)

/-- Alternation of a list of patterns, in written order. -/
def altL : List RE → RE
  | [] => reFail
  | [r] => r
  | r :: rs => RE.alt r (altL rs)

/-- Sequencing of a list of patterns. -/
def seqL : List RE → RE
  | [] => RE.eps
  | [r] => r
  | r :: rs => RE.seq r (seqL rs)

/-- `X+` for a character class. -/
def plusc (p : Char → Bool) : RE :=
  RE.seq (RE.pred p) (RE.starc p)

/-- Greedy `X{0,3}` by nested greedy options. -/
def rep03 (r : RE) : RE :=
  RE.opt (RE.seq r (RE.opt (RE.seq r (RE.opt r))))

/-- A case-insensitive word with an optional trailing `s` (`words?`). -/
def wordS (w : String) : RE :=
  RE.seq (litCI w) (RE.opt (chC 's'))

/-- An exact lower-case word with an optional trailing `s`. -/
def wordSEx (w : String) : RE :=
  RE.seq (litEx w) (RE.opt (chE 's'))

/-- `\s` of the embedded patterns. -/
def wsP : Char → Bool := isPyWs

/-- `\d`. -/
def digitP : Char → Bool := Char.isDigit

/-- `\w` (ASCII model). -/
def wP : Char → Bool := fun c => c.isAlphanum || c = '_'

/-- `.` (anything but a newline). -/
def dotP : Char → Bool := fun c => c ≠ '\n'

/-!
The money grammar of src lines 129-243: magnitude words, currency tags,
the two scanning regexes, FX conversion with the static fallback, and
selection of the best candidate.
-/

/-- `_MULT_MAP` (src lines 129-142), keys exactly as written. -/
def MULT_MAP : List (String × ℚ) :=
  [("billion", 1000000000), ("bn", 1000000000), ("b", 1000000000),
   ("million", 1000000), ("mln", 1000000), ("m", 1000000),
   ("thousand", 1000), ("k", 1000),
   ("mrd", 1000000000), ("mrd.", 1000000000), ("milliard", 1000000000),
   ("milliards", 1000000000), ("miliardi", 1000000000),
   ("miljard", 1000000000), ("miljarder", 1000000000),
   ("mio", 1000000), ("mio.", 1000000), ("millions", 1000000),
   ("milioni", 1000000), ("miljoner", 1000000), ("milj.", 1000000),
   ("mln.", 1000000), ("mld", 1000000000), ("mld.", 1000000000),
   ("tys.", 1000),
   ("млрд", 1000000000), ("млн", 1000000), ("тыс", 1000), ("тис.", 1000),
   ("milyar", 1000000000), ("milyon", 1000000), ("bin", 1000),
   ("億", 100000000), ("万", 10000), ("萬", 10000), ("兆", 1000000000000),
   ("억", 100000000), ("만", 10000), ("조", 1000000000000)]

/-- `_MULT_ALTS`: the keys of `MULT_MAP` sorted by length, longest first
(Python's stable sort keeps insertion order among equal lengths). -/
def MULT_ALTS : List String :=
  ["milliards", "miljarder",
   "thousand", "milliard", "miliardi", "millions", "miljoner",
   "billion", "million", "miljard", "milioni",
   "milyar", "milyon",
   "milj.",
   "mrd.", "mio.", "mln.", "mld.", "tys.", "млрд", "тис.",
   "mln", "mrd", "mio", "mld", "млн", "тыс", "bin",
   "bn",
   "b", "m", "k", "億", "万", "萬", "兆", "억", "만", "조"]

/-- The alternation over `MULT_ALTS` used inside both money regexes. -/
def multAltsRE : RE :=
  altL (MULT_ALTS.map litCI)

/-- `_multiplier` (src lines 208-211): lower-case, strip whitespace, strip
dots, look up; unknown words multiply by 1. -/
def multiplier (tok : Option (List Char)) : ℚ :=
  match tok with
  | none => 1
  | some t =>
      let t' := String.mk (pyStripChar '.' (pyStrip (lowerS t)))
      ((MULT_MAP.lookup t').getD 1)

/-- `_CUR_TAGS` (src lines 144-156). -/
def CUR_TAGS : List (String × String) :=
  [("€", "EUR"), ("eur", "EUR"), ("euro", "EUR"),
   ("$", "USD"), ("usd", "USD"), ("us$", "USD"),
   ("£", "GBP"), ("gbp", "GBP"),
   ("¥", "JPY"), ("jpy", "JPY"), ("円", "JPY"),
   ("₩", "KRW"), ("krw", "KRW"),
   ("₺", "TRY"), ("try", "TRY"), ("tl", "TRY"),
   ("chf", "CHF"), ("cad", "CAD"), ("aud", "AUD"), ("nzd", "NZD"),
   ("sek", "SEK"), ("nok", "NOK"), ("dkk", "DKK"), ("czk", "CZK"),
   ("huf", "HUF"), ("pln", "PLN"), ("zł", "PLN"), ("zl", "PLN"),
   ("ron", "RON"), ("bgn", "BGN"), ("uah", "UAH"), ("ils", "ILS"),
   ("₪", "ILS"), ("cny", "CNY"), ("rmb", "CNY"), ("₽", "RUB"),
   ("mxn", "MXN"), ("brl", "BRL"), ("zar", "ZAR"), ("sar", "SAR"),
   ("aed", "AED"), ("qar", "QAR"), ("kwd", "KWD"),
   ("nt$", "TWD"), ("twd", "TWD"), ("ntd", "TWD"), ("元", "CNY"),
   ("新台幣", "TWD"), ("新臺幣", "TWD")]

/-- `_WORD_CUR` (src lines 158-166). -/
def WORD_CUR : List (String × String) :=
  [("dollar", "USD"), ("dollars", "USD"),
   ("euro", "EUR"), ("euros", "EUR"),
   ("pound", "GBP"), ("pounds", "GBP"), ("sterling", "GBP"),
   ("zloty", "PLN"), ("złoty", "PLN"), ("zlotych", "PLN"),
   ("koruna", "CZK"), ("krona", "SEK"), ("kronor", "SEK"), ("krone", "NOK"),
   ("shekel", "ILS"), ("shekels", "ILS"),
   ("hryvnia", "UAH"), ("franc", "CHF"), ("francs", "CHF")]

/-- `_norm_currency_tag` (src lines 168-170): known tag, known word, or a
bare three-letter token upper-cased verbatim. -/
def norm_currency_tag (tok : Option (List Char)) : Option String :=
  let t := pyStrip (lowerS (tok.getD []))
  match CUR_TAGS.lookup (String.mk t) with
  | some c => some c
  | none =>
      match WORD_CUR.lookup (String.mk t) with
      | some c => some c
      | none => if t.length = 3 then some (String.mk (upperS t)) else none

/-- The static fallback table of `_fx_rate_to_eur` (src lines 119-125). -/
def FX_FALLBACK : List (String × ℚ) :=
  [("USD", 92/100), ("GBP", 117/100), ("CHF", 102/100), ("CAD", 68/100),
   ("AUD", 62/100), ("NZD", 56/100), ("SEK", 89/1000), ("NOK", 84/1000),
   ("DKK", 134/1000), ("PLN", 23/100), ("CZK", 40/1000), ("HUF", 26/10000),
   ("RON", 20/100), ("BGN", 51/100), ("TRY", 28/1000), ("ILS", 26/100),
   ("INR", 11/1000), ("CNY", 13/100), ("JPY", 64/10000), ("KRW", 68/100000),
   ("MXN", 52/1000), ("BRL", 18/100), ("ZAR", 49/1000), ("SAR", 245/1000),
   ("AED", 25/100), ("QAR", 25/100), ("KWD", 3), ("TWD", 29/1000),
   ("UAH", 24/1000)]

/-- `_fx_rate_to_eur` (src lines 99-127).  The live exchange-rate service is
an external collaborator; following the spec it is modelled by the static
fallback the source carries, with unknown codes defaulting to rate 1. -/
def fx_rate_to_eur (ccy : String) : ℚ :=
  let c := String.mk (pyStrip (upperS ccy.data))
  if c = "" ∨ c = "EUR" then 1
  else (FX_FALLBACK.lookup c).getD 1

/-- Separators allowed inside a grouped integer part (`[.,\s]`). -/
def sep3P : Char → Bool := fun c => c = ',' || c = '.' || wsP c

/-- Decimal separators (`[.,]`). -/
def sepDP : Char → Bool := fun c => c = ',' || c = '.'

/-- The numeral core shared by both money regexes:
digits in groups of three or a plain digit run, then an optional decimal
part. -/
def numCoreRE : RE :=
  RE.seq
    (RE.alt
      (RE.seq (RE.repc digitP 1 3)
        (RE.seq (RE.seq (RE.pred sep3P) (RE.repc digitP 3 3))
          (RE.star (RE.seq (RE.pred sep3P) (RE.repc digitP 3 3)))))
      (plusc digitP))
    (RE.opt (RE.seq (RE.pred sepDP) (plusc digitP)))

/-- The symbol alternatives of the prefix grammar's currency group. -/
def curSymbolsRE : RE :=
  altL [chE '€', chE '$', chE '£', chE '¥', chE '₩', chE '₺', chE '₪',
        litCI "zł", litCI "nt$"]

/-- `_RX_BEFORE` (src lines 176-181): currency symbol, optional spaces,
number, optional magnitude word.  Groups: 1 = cur, 2 = num, 3 = mult. -/
def RX_BEFORE : RE :=
  seqL [RE.group 1 curSymbolsRE, RE.starc wsP, RE.group 2 numCoreRE,
        RE.opt (RE.seq (RE.repc wsP 0 1) (RE.group 3 multAltsRE))]

/-- The currency alternatives of the suffix grammar: any bare three-letter
token first, then symbols, then currency words, in source order. -/
def curAfterRE : RE :=
  altL ([RE.repc (fun c => c.isAlpha) 3 3,
         chE '€', chE '$', chE '£', chE '¥', chE '₩', chE '₺', chE '₪',
         litCI "zł", litCI "nt$",
         litCI "euro", wordS "euro", litCI "usd", litCI "us$",
         wordS "dollar", litCI "gbp", wordS "pound", litCI "sterling",
         litCI "jpy", litCI "yen", litCI "krw", litCI "won", litCI "try",
         litCI "lira", litCI "pln", litCI "złoty", litCI "zloty",
         litCI "zlotych", litCI "twd", litCI "chf", wordS "franc",
         litCI "cad", litCI "aud", litCI "nzd", litCI "sek", litCI "krona",
         litCI "kronor", litCI "nok", litCI "krone", litCI "dkk",
         litCI "czk", litCI "koruna", litCI "huf", litCI "ron",
         litCI "bgn", litCI "uah", litCI "hryvnia", litCI "ils",
         wordS "shekel", litCI "cny", litCI "rmb", litCI "mxn",
         litCI "brl", litCI "zar", litCI "sar", litCI "aed", litCI "qar",
         litCI "kwd"])

/-- `_RX_AFTER` (src lines 183-192): number, optional magnitude word,
currency token.  Groups: 1 = num, 2 = mult, 3 = cur. -/
def RX_AFTER : RE :=
  seqL [RE.group 1 numCoreRE, RE.repc wsP 0 1,
        RE.opt (RE.group 2 multAltsRE), RE.repc wsP 0 1,
        RE.group 3 curAfterRE]

/-- A money candidate: converted value, currency code, matched span. -/
structure MCand where
  eur : ℚ
  cur : String
  frag : String
deriving DecidableEq

/-- One candidate loop of `extract_money_eur` (src lines 218-234), with
the exception made explicit: per match the currency tag is normalised, the
number is parsed with `_to_float` — whose `ValueError` aborts the whole
call, modelled by `none` — the magnitude word is applied, and matches
without a recognised currency are skipped. -/
def candsOfMatches (gNum gMult gCur : Nat) :
    List (List Char × Caps) → Option (List MCand)
  | [] => some []
  | m :: ms =>
      match to_floatE ((capGet m.2 gNum).getD ['0']) with
      | none => none
      | some num =>
          match candsOfMatches gNum gMult gCur ms with
          | none => none
          | some rest =>
              match norm_currency_tag (capGet m.2 gCur) with
              | none => some rest
              | some cur =>
                  some (⟨num * multiplier (capGet m.2 gMult) *
                    fx_rate_to_eur cur, cur, String.mk m.1⟩ :: rest)

/-- The candidates produced by the prefix grammar, in text order; `none`
models the `ValueError` a malformed numeral raises. -/
def candsBeforeE (t : List Char) : Option (List MCand) :=
  candsOfMatches 2 3 1 (findIter RX_BEFORE t)

/-- The candidates produced by the suffix grammar, in text order; `none`
models the `ValueError` a malformed numeral raises. -/
def candsAfterE (t : List Char) : Option (List MCand) :=
  candsOfMatches 1 2 3 (findIter RX_AFTER t)

/-- All candidates of one `extract_money_eur` call: prefix-grammar matches
first, then suffix-grammar matches, as the two loops append them; an
exception in either loop aborts the call (the prefix loop runs first). -/
def extract_money_candsE (t : List Char) : Option (List MCand) :=
  match candsBeforeE t with
  | none => none
  | some bs =>
      match candsAfterE t with
      | none => none
      | some as_ => some (bs ++ as_)

/-- Stable insertion into a descending-sorted list: an element moves in
front of the first strictly smaller value, staying behind equal ones it
followed — i.e. in front of any equal value it preceded in the input. -/
def insertDesc (x : MCand) : List MCand → List MCand
  | [] => [x]
  | y :: ys => if y.eur ≤ x.eur then x :: y :: ys else y :: insertDesc x ys

/-- Python's stable `list.sort(key=value, reverse=True)`. -/
def sortDesc : List MCand → List MCand
  | [] => []
  | x :: xs => insertDesc x (sortDesc xs)

/-- The selected candidate: head of the stable descending sort
(`cands[0]` after `cands.sort(..., reverse=True)`). -/
def selCand (l : List MCand) : Option MCand :=
  (sortDesc l).head?

/-- The selection tail of `extract_money_eur` (src lines 236-243): no
candidates report nothing; a top candidate of non-positive value reports
no amount but keeps the currency and span for diagnostics. -/
def selectTop (cands : List MCand) :
    Option ℚ × Option String × Option String :=
  match selCand cands with
  | none => (none, none, none)
  | some c =>
      if c.eur ≤ 0 then (none, some c.cur, some c.frag)
      else (some c.eur, some c.cur, some c.frag)

/-- `extract_money_eur` (src lines 213-243) with the exception made
explicit: the outer `none` models the uncaught `ValueError` that a
malformed numeral raises out of the call (no surrounding handler exists in
`extract_money_eur`, `parse_source` or the enrichment worker). -/
def extract_money_eurE (t : List Char) :
    Option (Option ℚ × Option String × Option String) :=
  if t.isEmpty then some (none, none, none)
  else
    match extract_money_candsE t with
    | none => none
    | some cands => some (selectTop cands)

/-- Total wrapper over `extract_money_eurE` used to keep the classifier
record total; it collapses the raising case to the empty result, so every
theorem evaluating it does so at inputs separately shown exception-free,
while the claims about the extraction contract use `extract_money_eurE`
itself. -/
def extract_money_eur (t : List Char) :
    Option ℚ × Option String × Option String :=
  (extract_money_eurE t).getD (none, none, none)

/-!
The evidence classifier of src lines 636-910: status and source-type
lexicons, useful life, the item grammars, the unit-cost catalog and the
valuation estimator.
-/

/-- `DELIVERY_WORDS` (src line 636) over already lower-cased text. -/
def deliveryRE : RE :=
  RE.group 0 (altL
    [litEx "delivered",
     RE.seq (litEx "handed") (RE.seq (plusc wsP) (litEx "over")),
     RE.seq (litEx "arriv")
       (RE.alt (litEx "ed") (RE.seq (litEx "al") (RE.opt (chE 's')))),
     litEx "transferred", litEx "shipment", litEx "shipped",
     litEx "supplied", litEx "provided"])

/-- `DELIVERY_WORDS` matched case-insensitively, as used with
`flags=re.IGNORECASE` in the evidence-month window search (src line 891). -/
def deliveryCiRE : RE :=
  RE.group 0 (altL
    [litCI "delivered",
     RE.seq (litCI "handed") (RE.seq (plusc wsP) (litCI "over")),
     RE.seq (litCI "arriv")
       (RE.alt (litCI "ed") (RE.seq (litCI "al") (RE.opt (chC 's')))),
     litCI "transferred", litCI "shipment", litCI "shipped",
     litCI "supplied", litCI "provided"])

/-- `COMMIT_WORDS` (src line 637) over lower-cased text. -/
def commitRE : RE :=
  RE.group 0 (altL
    [RE.seq (litEx "announce") (RE.alt (litEx "d") (litEx "ment")),
     RE.seq (litEx "pledge") (RE.opt (litEx "d")),
     RE.seq (litEx "commit") (RE.alt (litEx "ted") (litEx "ment")),
     RE.seq (litEx "authorize") (RE.opt (litEx "d"))])

/-- `infer_status` (src lines 731-737): delivery verbs win; anything else,
including no match at all, is the conservative commitment bucket. -/
def infer_status (text : List Char) : String :=
  let t := lowerS text
  if reTest deliveryRE t then "Delivered/Disbursed"
  else if reTest commitRE t then "Commitment/Other"
  else "Commitment/Other"

/-- The stockpile pattern family of `source_type` (src line 741). -/
def stockpileRE : RE :=
  RE.group 0 (altL
    [litEx "drawdown",
     RE.seq (litEx "from") (RE.seq (plusc wsP) (wordSEx "stock")),
     RE.seq (litEx "from") (RE.seq (plusc wsP) (litEx "stockpiles")),
     RE.seq (litEx "from") (RE.seq (plusc wsP) (litEx "inventory")),
     RE.seq (litEx "from") (RE.seq (plusc wsP) (litEx "reserves")),
     litEx "pda",
     RE.seq (litEx "presidential") (RE.seq (plusc wsP) (litEx "drawdown"))])

/-- The procurement pattern family of `source_type` (src line 743). -/
def procurementRE : RE :=
  RE.group 0 (altL
    [litEx "procure", litEx "procurement", litEx "contract",
     litEx "order", litEx "purchase", litEx "manufactur",
     RE.seq (litEx "framework") (RE.seq (plusc wsP) (litEx "contract")),
     litEx "tender"])

/-- The indirect/swap pattern family of `source_type` (src line 745). -/
def indirectRE : RE :=
  RE.group 0 (altL
    [litEx "ringtausch", litEx "backfill", litEx "swap",
     RE.seq (litEx "indirect") (RE.seq (plusc wsP) (litEx "transfer")),
     RE.seq (litEx "compensat") (RE.alt (litEx "e") (litEx "ion")),
     RE.seq (litEx "in") (RE.seq (plusc wsP) (litEx "return"))])

/-- `source_type` (src lines 739-747): stockpile, then procurement, then
indirect; otherwise unknown. -/
def source_type (text : List Char) : String :=
  let t := lowerS text
  if reTest stockpileRE t then "stockpile"
  else if reTest procurementRE t then "new_production"
  else if reTest indirectRE t then "indirect"
  else "unknown"

/-- `useful_life_years` (src lines 749-758): the ordered category lexicon
over lower-cased item text. -/
def useful_life_years (itemsText : List Char) : Nat :=
  let t := lowerS itemsText
  if reTest (RE.group 0 (altL [litEx "ammo", litEx "ammunition",
      litEx "shell", litEx "round", litEx "rocket", litEx "missile",
      litEx "grenade", litEx "mine"])) t then 0
  else if reTest (RE.group 0 (altL [litEx "howitzer", litEx "artillery",
      litEx "mortar", litEx "gun"])) t then 30
  else if reTest (RE.group 0 (altL [litEx "tank", litEx "mbt",
      litEx "ifv", litEx "apc", litEx "armou", litEx "vehicle",
      litEx "truck", litEx "stryk", litEx "bradley", litEx "leopard",
      litEx "abrams", litEx "m113", litEx "cv90"])) t then 25
  else if reTest (RE.group 0 (altL [litEx "patriot", litEx "nasams",
      RE.seq (litEx "iris") (RE.seq (RE.repc (fun c => c = '-' || wsP c) 0 1)
        (litEx "t")),
      litEx "sam",
      RE.seq (litEx "air") (RE.seq (RE.starc wsP) (litEx "defen")),
      litEx "radar"])) t then 25
  else if reTest (RE.group 0 (altL [litEx "uav", litEx "drone",
      litEx "loitering",
      RE.seq (litEx "phoenix") (RE.seq (RE.starc wsP) (litEx "ghost")),
      litEx "switchblade"])) t then 6
  else if reTest (RE.group 0 (altL
      [RE.seq (litEx "night") (RE.seq (RE.starc wsP) (litEx "vision")),
       litEx "nvg", litEx "helmet", litEx "vest", litEx "uniform",
       litEx "protective", litEx "generator"])) t then 5
  else if reTest (RE.group 0 (altL [litEx "demin", litEx "clearance"])) t
    then 10
  else 15

/-- `ITEM_NOUNS` (src line 793), alternatives in source order. -/
def itemNounsRE : RE :=
  altL [wordS "unit", wordS "system", wordS "vehicle", wordS "tank",
        wordS "ifv", wordS "apc", wordS "mbt", wordS "howitzer",
        wordS "gun", wordS "launcher", wordS "batterie", wordS "missile",
        wordS "rocket", wordS "round", wordS "shell", wordS "cartridge",
        wordS "grenade", wordS "mine", wordS "drone", wordS "uav",
        litCI "aircraft", wordS "helicopter", wordS "rifle", wordS "truck",
        wordS "radar"]

/-- The character class of the quantity grammar admitting word characters,
hyphen and slash. -/
def wSlashP : Char → Bool := fun c => wP c || c = '-' || c = '/'

/-- The item alternative of the quantity grammar: a letter, a run of word
characters with hyphen and slash, then up to three further such words
separated by whitespace; under `re.IGNORECASE` the classes `[A-Z]` and
`[A-Z0-9]` also match lower case. -/
def itemNameRE : RE :=
  RE.seq (RE.pred (fun c => c.isAlpha))
    (RE.seq (plusc wSlashP)
      (rep03 (RE.seq (plusc wsP)
        (RE.seq (RE.pred (fun c => c.isAlphanum)) (plusc wSlashP)))))

/-- The caliber alternative `\d{2,4}\s?mm(?:\s*(?:rounds?|shells?|ammo))?`. -/
def caliberRE : RE :=
  RE.seq (RE.repc digitP 2 4)
    (RE.seq (RE.repc wsP 0 1)
      (RE.seq (litCI "mm")
        (RE.opt (RE.seq (RE.starc wsP)
          (altL [wordS "round", wordS "shell", litCI "ammo"])))))

/-- The quantity grammar of `extract_item_counts` (src lines 796-801).
Groups: 1 = qty, 2 = noun, 3 = item. -/
def itemCountsRE : RE :=
  seqL [RE.group 1 (RE.alt
          (RE.seq (RE.repc digitP 1 3)
            (RE.star (RE.seq (RE.pred sepDP) (RE.repc digitP 3 3))))
          (plusc digitP)),
        RE.starc wsP,
        RE.opt (RE.seq (chC 'x') (RE.starc wsP)),
        RE.opt (RE.group 2 itemNounsRE),
        RE.starc wsP,
        RE.group 3 (RE.alt itemNameRE caliberRE)]

/-- The label loop of `extract_item_counts` (src lines 802-809), with the
exception made explicit: `int(_to_float(qty))` can raise on a quantity
such as "1.234.567", which the quantity grammar admits; `none` models that
`ValueError` aborting the call. -/
def itemLabelsOfMatches : List (List Char × Caps) → Option (List String)
  | [] => some []
  | m :: ms =>
      match to_floatE ((capGet m.2 1).getD []) with
      | none => none
      | some q =>
          let qty := pyIntOf q
          let noun := pyStrip ((capGet m.2 2).getD [])
          let item := pyStrip ((capGet m.2 3).getD [])
          let label :=
            if noun.isEmpty then (Nat.repr qty).data ++ ' ' :: item
            else (Nat.repr qty).data ++ ' ' :: item ++ ' ' :: noun
          match itemLabelsOfMatches ms with
          | none => none
          | some rest =>
              some (if 1 ≤ qty ∧ label.length ≤ 80 then
                String.mk label :: rest else rest)

/-- `extract_item_counts` (src lines 795-815) with the exception made
explicit: quantity-aware labels, filtered by quantity and length,
deduplicated, capped at 20; `none` models the uncaught `ValueError`. -/
def extract_item_countsE (text : List Char) : Option (List String) :=
  match itemLabelsOfMatches (findIter itemCountsRE text) with
  | none => none
  | some raw => some ((pyUniq raw).take 20)

/-- Total wrapper over `extract_item_countsE`; the collapsing case is the
uncaught `ValueError`, and every theorem evaluating this wrapper does so
at concrete inputs on which the exception does not occur. -/
def extract_item_counts (text : List Char) : List String :=
  (extract_item_countsE text).getD []

/-- The keyword catalog `KEYMAP` of `extract_items` (src lines 761-786),
patterns in source order. -/
def KEYMAP : List (RE × String) :=
  [(seqL [RE.wb, litCI "ATACMS", RE.wb], "ATACMS long-range missiles"),
   (seqL [RE.wb, litCI "HIMARS", RE.wb], "HIMARS rockets/launchers"),
   (seqL [RE.wb, litCI "GMLRS", RE.wb], "GMLRS rockets"),
   (seqL [RE.wb, litCI "NASAM", RE.opt (chC 's'), RE.wb],
     "NASAMS air-defense"),
   (seqL [RE.wb, litCI "Patriot", RE.wb], "Patriot air-defense"),
   (seqL [RE.wb, litCI "AIM", RE.repc (fun c => c = '-' || wsP c) 0 1,
      chC '9', RE.starc wP, RE.wb], "AIM-9 missiles"),
   (RE.alt (seqL [RE.wb, litCI "AMRAAM", RE.wb])
      (seqL [RE.wb, litCI "AIM", RE.repc (fun c => c = '-' || wsP c) 0 1,
        litCI "120", RE.wb]), "AMRAAM missiles"),
   (seqL [RE.wb, chC 'f', RE.repc (fun c => c = '-' || wsP c) 0 1,
      litCI "16", RE.wb], "F-16 support"),
   (seqL [RE.wb, litCI "Leopard", RE.wb], "Leopard tanks"),
   (altL [seqL [RE.wb, litCI "Abrams", RE.wb],
          seqL [RE.wb, litCI "Bradley", RE.wb],
          seqL [RE.wb, litCI "Stryker", RE.wb],
          seqL [RE.wb, litCI "M113", RE.wb],
          seqL [RE.wb, litCI "CV90", RE.wb]], "Armored vehicles"),
   (seqL [RE.wb, RE.group 0 (altL [litCI "155", litCI "152", litCI "122",
      litCI "120", litCI "105"]), RE.repc wsP 0 1, litCI "mm", RE.wb],
     "Artillery/mortar ammo"),
   (RE.alt (seqL [RE.wb, litCI "Switchblade", RE.wb])
      (seqL [RE.wb, litCI "Phoenix", plusc wsP, litCI "Ghost", RE.wb]),
     "Loitering munitions"),
   (RE.alt (seqL [RE.wb, litCI "Storm", plusc wsP, litCI "Shadow", RE.wb])
      (seqL [RE.wb, litCI "SCALP", RE.wb]), "Cruise missiles"),
   (altL [seqL [RE.wb, litCI "Stinger", RE.wb],
          seqL [RE.wb, litCI "Javelin", RE.wb],
          seqL [RE.wb, litCI "NLAW", RE.wb]], "AT/AA missiles"),
   (altL [RE.seq (litCI "night") (RE.seq (RE.starc wsP) (litCI "vision")),
          litCI "helmet", litCI "vest", litCI "generator",
          litCI "ambulance"], "Non-lethal equipment"),
   (RE.alt (litCI "demin") (litCI "clearance"), "Demining equipment"),
   (seqL [RE.wb, litCI "PT", RE.repc (fun c => c = '-' || wsP c) 0 1,
      litCI "91", RE.wb], "PT-91 tanks"),
   (seqL [RE.wb, chC 't', RE.repc (fun c => c = '-' || wsP c) 0 1,
      litCI "72", RE.wb], "T-72 tanks"),
   (seqL [RE.wb, litCI "Mi", RE.repc (fun c => c = '-' || wsP c) 0 1,
      litCI "24", RE.wb], "Mi-24 attack helicopters"),
   (seqL [RE.wb, litCI "Piorun", RE.wb], "Piorun MANPADS"),
   (seqL [RE.wb, litCI "ZU", RE.repc (fun c => c = '-' || wsP c) 0 1,
      litCI "23", RE.repc (fun c => c = '-' || wsP c) 0 1, chC '2', RE.wb],
     "ZU-23-2 autocannons"),
   (seqL [RE.wb, litCI "FlyEye", RE.wb], "FlyEye UAVs"),
   (seqL [RE.wb, chC 's', RE.repc (fun c => c = '-' || wsP c) 0 1,
      litCI "60", RE.wb], "S-60 AA guns"),
   (seqL [RE.wb, litCI "LMP", RE.repc (fun c => c = '-' || wsP c) 0 1,
      litCI "2017", RE.wb], "LMP-2017 mortars")]

/-- `extract_items` (src lines 760-791): keyword labels in catalog order,
deduplicated, capped at 20 (the text is lower-cased before the
case-insensitive search, as in the source). -/
def extract_items (text : List Char) : List String :=
  let low := lowerS text
  let out := KEYMAP.filterMap (fun p =>
    if reTest p.1 low then some p.2 else none)
  (pyUniq out).take 20

/-- A hyphen-or-space separator appearing in several catalog patterns. -/
def hySp : RE :=
  RE.repc (fun c => c = '-' || wsP c) 0 1

/-- `UNIT_COST_EUR` (src lines 817-849): the priority-ordered unit-cost
catalog; every pattern is searched case-insensitively. -/
def UNIT_COST_EUR : List (RE × ℚ) :=
  [(seqL [RE.wb, litCI "155", RE.repc wsP 0 1, litCI "mm", RE.wb,
      RE.starc dotP, RE.group 0 (altL [litCI "round", litCI "shell",
      litCI "ammo"])], 3500),
   (seqL [RE.wb, litCI "105", RE.repc wsP 0 1, litCI "mm", RE.wb,
      RE.starc dotP, RE.group 0 (altL [litCI "round", litCI "shell",
      litCI "ammo"])], 2500),
   (seqL [RE.wb, litCI "120", RE.repc wsP 0 1, litCI "mm", RE.wb,
      RE.starc dotP, litCI "mortar"], 1200),
   (seqL [RE.wb, litCI "GMLRS", RE.wb], 160000),
   (seqL [RE.wb, litCI "ATACMS", RE.wb], 1200000),
   (seqL [RE.wb, litCI "HIMARS", RE.wb, RE.starc dotP,
      RE.opt (RE.group 0 (RE.alt (litCI "launcher") (litCI "system")))],
     5000000),
   (seqL [RE.wb, litCI "Patriot", RE.wb, RE.starc dotP,
      RE.opt (RE.group 0 (RE.alt (litCI "battery") (litCI "system")))],
     400000000),
   (seqL [RE.wb, litCI "NASAM", RE.opt (chC 's'), RE.wb], 80000000),
   (RE.alt (seqL [RE.wb, litCI "AMRAAM", RE.wb])
      (seqL [RE.wb, litCI "AIM", hySp, litCI "120", RE.wb]), 1200000),
   (seqL [RE.wb, litCI "AIM", hySp, chC '9', RE.starc wP, RE.wb], 400000),
   (seqL [RE.wb, litCI "Stinger", RE.wb], 120000),
   (seqL [RE.wb, litCI "Javelin", RE.wb], 170000),
   (seqL [RE.wb, litCI "NLAW", RE.wb], 40000),
   (seqL [RE.wb, litCI "Bradley", RE.wb], 3500000),
   (seqL [RE.wb, litCI "Stryker", RE.wb], 4500000),
   (seqL [RE.wb, litCI "Abrams", RE.wb], 9000000),
   (seqL [RE.wb, litCI "Leopard", RE.repc wsP 0 1, chC '2', RE.starc wP,
      RE.wb], 8000000),
   (seqL [RE.wb, litCI "Leopard", RE.wb], 4000000),
   (seqL [RE.wb, litCI "M113", RE.wb], 300000),
   (seqL [RE.wb, litCI "CV90", RE.wb], 8000000),
   (seqL [RE.wb, litCI "Mi-24", RE.wb], 10000000),
   (seqL [RE.wb, litCI "FlyEye", RE.wb], 300000),
   (seqL [RE.wb, litCI "Piorun", RE.wb], 100000),
   (seqL [RE.wb, litCI "radar", RE.wb], 5000000),
   (seqL [RE.wb, litCI "howitzer", RE.wb], 1000000),
   (seqL [RE.wb, litCI "mortar", RE.wb], 120000),
   (altL [seqL [RE.wb, litCI "APC", RE.wb],
          seqL [RE.wb, litCI "IFV", RE.wb],
          seqL [RE.wb, litCI "armo", RE.opt (chC 'u'), litCI "re",
            RE.opt (chC 'd'), plusc wsP, litCI "vehicle", RE.wb]],
     1500000),
   (seqL [RE.wb, litCI "truck", RE.wb], 150000),
   (RE.alt (seqL [RE.wb, litCI "drone", RE.opt (chC 's'), RE.wb])
      (seqL [RE.wb, litCI "UAV", RE.opt (chC 's'), RE.wb]), 50000),
   (seqL [RE.wb, litCI "rifle", RE.opt (chC 's'), RE.wb], 1200),
   (RE.alt (seqL [RE.wb, litCI "helmet", RE.opt (chC 's'), RE.wb])
      (seqL [RE.wb, litCI "vest", RE.opt (chC 's'), RE.wb]), 400)]

/-- `_unit_cost_eur` (src lines 851-855): first catalog match wins. -/
def unit_cost_eur (label : List Char) : Option ℚ :=
  (UNIT_COST_EUR.find? (fun p => reTest p.1 label)).map (fun p => p.2)

/-- The label parser `_parse_qty_item` (src lines 857-863): a leading digit
run (with commas and dots), whitespace, then the item text.  Its
`int(_to_float(..))` uses the totalized parse: the labels reaching it from
`extract_item_counts` always start with a plain decimal quantity (printed
by the label builder), on which `_to_float` cannot raise. -/
def parse_qty_item (label : List Char) : Option (Nat × List Char) :=
  let s := label.dropWhile isPyWs
  match s with
  | [] => none
  | c :: _ =>
      if c.isDigit then
        let numPart := s.takeWhile (fun x => x.isDigit || x = ',' || x = '.')
        let rest := s.drop numPart.length
        let restW := rest.dropWhile isPyWs
        if restW.length < rest.length ∧ ¬ restW.isEmpty then
          some (pyIntOf (to_float numPart), pyStrip restW)
        else none
      else none

/-- A plain decimal rendering used for the human-readable breakdown lines;
the source formats these with thousands separators, a display-only
difference. -/
def moneyFmt (q : ℚ) : String :=
  toString q.floor

/-- `estimate_value_from_count_labels` (src lines 865-878). -/
def estimate_value_from_count_labels (labels : List String) :
    ℚ × List String :=
  labels.foldl (fun acc lab =>
    match parse_qty_item lab.data with
    | none => acc
    | some (qty, what) =>
        match unit_cost_eur what with
        | none => acc
        | some unit =>
            let val := (qty : ℚ) * unit
            (acc.1 + val,
             acc.2 ++ [String.mk ((Nat.repr qty).data ++ '×' :: what)
               ++ " @≈€" ++ moneyFmt unit ++ " ≈ €"
               ++ moneyFmt val]))
    (0, [])

/-- `estimate_value_from_text` (src lines 880-881). -/
def estimate_value_from_text (text : List Char) : ℚ × List String :=
  estimate_value_from_count_labels (extract_item_counts text)

/-- English month names, for the date-search model. -/
def monthNames : List (String × Nat) :=
  [("january", 1), ("february", 2), ("march", 3), ("april", 4),
   ("may", 5), ("june", 6), ("july", 7), ("august", 8),
   ("september", 9), ("october", 10), ("november", 11), ("december", 12)]

/-- Modelled from the spec: the external locale-aware date search
(`dateparser.search.search_dates`, a third-party collaborator not part of
this repository) is modelled as finding English month-name + four-digit
year mentions, in text order, returning (year, month) pairs. -/
def searchDatesModel (t : List Char) : List (Int × Nat) :=
  let low := lowerS t
  (List.range low.length).filterMap (fun i =>
    let s := low.drop i
    (monthNames.find? (fun p => p.1.data.isPrefixOf s)).bind (fun p =>
      let r := (s.drop p.1.length).dropWhile isPyWs
      let ds := r.takeWhile Char.isDigit
      if ds.length = 4 then some ((natOfDigits ds : Int), p.2) else none))

/-- Zero-padded two-digit rendering of a month number. -/
def month2 (m : Nat) : String :=
  if m < 10 then String.mk ['0', Char.ofNat (48 + m)] else Nat.repr m

/-- `strftime` with the `MONTH_FMT` format (year, dash, two-digit month). -/
def fmtYearMonth (y : Int) (m : Nat) : String :=
  toString y ++ "-" ++ month2 m

/-- `_month_from_text` (src lines 718-729): first found date whose year
falls in the plausible window 2022-2026, formatted year-month.  Language
selection only parameterises the external date search and is absorbed by
the model. -/
def month_from_text (text : List Char) : Option String :=
  ((searchDatesModel text).find? (fun p => 2022 ≤ p.1 ∧ p.1 ≤ 2026)).map
    (fun p => fmtYearMonth p.1 p.2)

/-- The evidence-month window pattern of `parse_source` (src line 891):
up to 200 characters of context either side of a delivery verb. -/
def windowRE : RE :=
  seqL [RE.repc dotP 0 200, deliveryCiRE, RE.repc dotP 0 200]

/-- The result record of `parse_source` (src lines 902-910). -/
structure ParseResult where
  status : Option String
  evidence_month : Option String
  items : String
  source_type : Option String
  raw_text : String
  value_eur : Option ℚ
  money_evidence : Option String
deriving DecidableEq

/-- `parse_source` given the fetched text (src lines 885-910; the fetch
itself is modelled separately).  Empty text yields the all-empty result;
`items` joins the chosen item list with semicolons, preferring the
quantity-aware grammar. -/
def parse_source_text (txt : List Char) : ParseResult :=
  if txt.isEmpty then
    { status := none, evidence_month := none, items := "",
      source_type := none, raw_text := "", value_eur := none,
      money_evidence := none }
  else
    let status := infer_status txt
    let win0 := (reSearch windowRE txt).bind (fun m => month_from_text m.1)
    let win := match win0 with
      | some w => some w
      | none => month_from_text (txt.take 1200 ++ txt.drop (txt.length - 1200))
    let itemsQuant := extract_item_counts txt
    let itemsSimple := extract_items txt
    let items := if itemsQuant.isEmpty then itemsSimple else itemsQuant
    let sType := source_type txt
    let money := extract_money_eur txt
    { status := some status,
      evidence_month := win,
      items := String.intercalate "; " items,
      source_type := some sType,
      raw_text := String.mk (txt.take 20000),
      value_eur := money.1,
      money_evidence := money.2.2 }

/-!
The enrichment orchestrator's merge step (src lines 996-1036), the cached
fetcher (src lines 653-716) and the URL-candidate resolution (src lines
950-965).
-/

/-- One spreadsheet row of the military sheet, with the fields touched by
enrichment.  `baseValue = none` models an empty or NaN cell, and likewise
`usefulLife` and `finalValue` model the initially empty cells. -/
structure Row where
  month : String
  baseValue : Option ℚ
  desc : String
  status : String
  evidenceMonth : String
  sources : String
  sourceType : String
  productionYear : String
  usefulLife : Option Nat
  trainingValue : String
  finalValue : Option ℚ
deriving DecidableEq

/-- Python `int(s[:4])` on a month-like cell: the first four characters
must be a (whitespace-trimmed, non-empty) digit string, else the `except`
branch leaves the year unknown. -/
def pyYear4 (s : String) : Option Int :=
  let t := pyStrip (s.data.take 4)
  if ¬ t.isEmpty ∧ t.all Char.isDigit then some (natOfDigits t : Int)
  else none

/-- The item-text paragraph of the merge (src lines 998-1002): append the
stripped new items when they are not already a substring, capped at 6000
characters. -/
def mergeItems (row : Row) (res : ParseResult) : Row :=
  if res.items ≠ "" then
    let old := String.mk (pyStrip row.desc.data)
    let add := String.mk (pyStrip res.items.data)
    if add ≠ "" ∧ ¬ strIn add.data old.data then
      let newDesc := String.mk
        ((old.data ++ (if old.data.isEmpty then [] else ("; ").data)
          ++ add.data).take 6000)
      { row with desc := newDesc }
    else row
  else row

/-- The fill-if-blank paragraph of the merge (src lines 1004-1006) for
status, evidence month and source type. -/
def mergeFill (row : Row) (res : ParseResult) : Row :=
  { row with
    status := if row.status ≠ "" then row.status else ((res.status).getD ""),
    evidenceMonth := if row.evidenceMonth ≠ "" then row.evidenceMonth
      else ((res.evidence_month).getD ""),
    sourceType := if row.sourceType ≠ "" then row.sourceType
      else ((res.source_type).getD "") }

/-- The amount paragraph of the merge (src lines 1008-1015): only when no
positive amount exists, take the extracted amount if truthy, else fall
back to the valuation estimator over the raw text.  (The source reaches
the estimator through the falsiness of `value_eur`; both the `None` and
the 0.0 case land there, hence the two identical branches.) -/
def mergeAmount (row : Row) (res : ParseResult) : Row :=
  let hasPosBase : Bool := match row.baseValue with
    | some v => decide (0 < v)
    | none => false
  if ¬ hasPosBase then
    match res.value_eur with
    | some v =>
        if v ≠ 0 then { row with baseValue := some v }
        else
          let est := (estimate_value_from_text res.raw_text.data).1
          if est ≠ 0 ∧ 0 < est then { row with baseValue := some est }
          else row
    | none =>
        let est := (estimate_value_from_text res.raw_text.data).1
        if est ≠ 0 ∧ 0 < est then { row with baseValue := some est }
        else row
  else row

/-- The derived-fields paragraph of the merge (src lines 1017-1034):
recompute the useful life from the updated item text and, when the base is
positive, the final depreciated value from the updated evidence month and
source type. -/
def mergeDerived (row : Row) : Row :=
  let life := useful_life_years row.desc.data
  let row := { row with usefulLife := some life }
  let sendYear := pyYear4
    (if row.evidenceMonth ≠ "" then row.evidenceMonth
     else if row.month ≠ "" then row.month else "")
  let baseVal : ℚ := (row.baseValue).getD 0
  let finalV : ℚ :=
    match sendYear with
    | some y =>
        if (if row.sourceType = "" then "unknown" else row.sourceType)
            = "stockpile" then
          stockpileDepreciation baseVal life y
        else baseVal
    | none => baseVal
  if 0 < baseVal then { row with finalValue := some finalV }
  else row

/-- The merge of one parse result into its row, exactly the body of the
`as_completed` loop of `auto_enrich_military` (src lines 996-1036), as the
composition of its four paragraphs in source order. -/
def mergeRow (row : Row) (res : ParseResult) : Row :=
  mergeDerived (mergeAmount (mergeFill (mergeItems row res) res) res)

/-- A fetched HTTP response: its content-type header and its body.  A
`none` response models an exception out of `requests.get` (timeout,
network failure, exhausted retries). -/
structure Page where
  ctype : String
  body : String
deriving DecidableEq

/-- The disk cache, keyed by URL: kind tag and cached text.  A missing or
corrupt cache file reads as `none` (src lines 664-671). -/
abbrev FetchCache := List (String × String × String)

/-- Cache lookup, first entry wins. -/
def cacheGet (cache : FetchCache) (u : String) :
    Option (String × String) :=
  (cache.find? (fun e => e.1 = u)).map (fun e => e.2)

/-- Python `str.endswith`. -/
def endsWith (suf : String) (s : String) : Bool :=
  suf.data.reverse.isPrefixOf s.data.reverse

/-- `fetch_text` (src lines 693-716) over an explicit network oracle
`net` (`none` = raised exception), a PDF text extractor that may be absent
(`pdf_extract_text is None`), and an HTML-to-text pipeline `htmlx`
modelling the BeautifulSoup cleanup plus published-timestamp prefix.
Returns the (kind, text) pair, the cache after the call, and the number of
network calls performed.  The cache is consulted before any network
activity; a PDF response without an extractor and a raised exception both
return empty without writing the cache. -/
def fetch_text (net : String → Option Page)
    (pdfx : Option (String → String)) (htmlx : String → String)
    (cache : FetchCache) (u : String) :
    (String × String) × FetchCache × Nat :=
  match cacheGet cache u with
  | some (k, t) => ((k, t), cache, 0)
  | none =>
      match net u with
      | none => (("", ""), cache, 1)
      | some p =>
          if strIn ("application/pdf").data (lowerS p.ctype.data)
              ∨ endsWith ".pdf" (String.mk (lowerS u.data)) then
            match pdfx with
            | none => (("", ""), cache, 1)
            | some f =>
                let t := f p.body
                (("pdf", t), (u, "pdf", t) :: cache, 1)
          else
            let t := htmlx p.body
            (("html", t), (u, "html", t) :: cache, 1)

/-- Host extraction of `urlparse(u).hostname` for the http(s) URLs in
scope: the part between the scheme separator and the next slash, query or
fragment, lower-cased, without userinfo or port. -/
def hostOf (u : String) : String :=
  let d := u.data
  let afterScheme :=
    if ("://").data.isPrefixOf (d.dropWhile (fun c => c ≠ ':')) then
      (d.dropWhile (fun c => c ≠ ':')).drop 3
    else []
  let netloc := afterScheme.takeWhile
    (fun c => c ≠ '/' ∧ c ≠ '?' ∧ c ≠ '#')
  let host := (netloc.reverse.takeWhile (fun c => c ≠ '@')).reverse
  let host := host.takeWhile (fun c => c ≠ ':')
  String.mk (lowerS host)

/-- `_is_google_search` (src lines 640-645). -/
def is_google_search (u : String) : Bool :=
  strIn ("google.").data (hostOf u).data ∧ strIn ("/search").data u.data

/-- Splitting a Sources cell on pipes with surrounding whitespace, the
effect of `re.split` with an optional-whitespace pipe pattern followed by
`token.strip()`. -/
def splitSources (src : String) : List String :=
  (src.splitOn "|").map (fun t => String.mk (pyStrip t.data))

/-- `_resolve_url_candidates` (src lines 950-965) with the Google
first-result resolver abstracted as an oracle `g` (it performs its own
cached network lookup; `none` or an empty string means no organic result).
Search tokens resolve through the oracle; other http tokens pass through;
the list is deduplicated and capped at two. -/
def resolve_url_candidates (g : String → Option String) (src : String) :
    List String :=
  let out := (splitSources src).foldl (fun acc token =>
    if token = "" then acc
    else if is_google_search token then
      match g token with
      | some u => if u ≠ "" then acc ++ [u] else acc
      | none => acc
    else if ("http").data.isPrefixOf token.data then acc ++ [token]
    else acc) []
  (pyUniq out).take 2


/-!
Claims C3, C7, C8: the depreciation arithmetic.
-/

/-- Auxiliary: the source's `life or 1` equals `max 1 life`. -/
lemma lifeOr1_eq (life : Nat) : (if life = 0 then 1 else life) = max 1 life := by
  split <;> omega

/-- Auxiliary: the clamped half-life is unchanged by the `or 1` guard. -/
lemma halfLife_eq (life : Nat) :
    max 1 (max 1 life / 2) = max 1 (life / 2) := by
  omega

/-- Auxiliary: closed form of the code's stockpile depreciation with the
claim-style components. -/
lemma stockpileDepreciation_eq (base : ℚ) (life : Nat) (y : Int) :
    stockpileDepreciation base life y =
      max 0 (base - (base / ((max 1 life : Nat) : ℚ)) *
        (((y - (y - (min (max 1 (life / 2)) 12 : Nat)) : Int)) : ℚ)) := by
  unfold stockpileDepreciation
  simp only [lifeOr1_eq, halfLife_eq, sub_sub_cancel]
  rw [max_eq_right (Int.natCast_nonneg _)]

/-- C3 (counterexample): with useful life 0 the claim's annual amount
`base_value / useful_life` is a division by zero, so the claim's formula
disagrees with the code, which divides by `life or 1`: at base 100,
life 0, evidence year 2023 the code yields 0 while the claim's formula
yields 100. -/
theorem c3_depreciation_counterexample :
    depreciateStep 100 0 "stockpile" (some 2023) ≠
      some (claimDepreciationC3 100 0 2023) := by
  have h1 : depreciateStep 100 0 "stockpile" (some 2023) = some 0 := by
    unfold depreciateStep stockpileDepreciation
    norm_num [max_def, min_def]
    decide
  have h2 : claimDepreciationC3 100 0 2023 = 100 := by
    unfold claimDepreciationC3
    norm_num [max_def, min_def]
  rw [h1, h2]
  intro hc
  exact absurd (Option.some.inj hc) (by norm_num)

/-- C3 (amended): for every stockpile record with positive base value and a
parsed evidence year, the production year is evidence year minus
`min(max(1, useful_life/2), 12)`, years-used is the difference back, and
the final value is `max(0, base − annual × years_used)` — with the annual
amount `base_value / max(1, useful_life)` rather than the claim's
`base_value / useful_life`. -/
theorem c3_depreciation_formula_amended (base : ℚ) (life : Nat) (y : Int)
    (h : 0 < base) :
    depreciateStep base life "stockpile" (some y) =
      some (max 0 (base -
        (base / ((max 1 life : Nat) : ℚ)) *
          (((y - (y - (min (max 1 (life / 2)) 12 : Nat)) : Int)) : ℚ))) := by
  simp only [depreciateStep, if_pos h]
  rw [stockpileDepreciation_eq]
  simp

/-- Witness for the amended C3 at base 100, life 30, year 2024. -/
theorem c3_depreciation_formula_amended_witness :
    depreciateStep 100 30 "stockpile" (some 2024) =
      some (max 0 ((100 : ℚ) -
        ((100 : ℚ) / ((max 1 30 : Nat) : ℚ)) *
          (((2024 - (2024 - (min (max 1 (30 / 2)) 12 : Nat)) : Int)) : ℚ))) :=
  c3_depreciation_formula_amended 100 30 2024 (by norm_num)

/-- C7: depreciation is a no-op for every source category other than
"stockpile" (the blank category reads as "unknown"): the merge step
returns the base value unchanged, `_build_rows_from_web` does the same,
and the spec's concrete instance with category "new_production" returns
the base value 1,000,000. -/
theorem c7_depreciation_noop_off_stockpile :
    (∀ (base : ℚ) (life : Nat) (srcType : String) (sy : Option Int),
      srcType ≠ "stockpile" → 0 < base →
      depreciateStep base life srcType sy = some base) ∧
    (∀ (base : ℚ) (life : Nat) (srcType : String),
      srcType ≠ "stockpile" → webFinal base life srcType = base) ∧
    depreciateStep 1000000 25 "new_production" (some 2024) =
      some 1000000 := by
  have h1 : ∀ (base : ℚ) (life : Nat) (srcType : String) (sy : Option Int),
      srcType ≠ "stockpile" → 0 < base →
      depreciateStep base life srcType sy = some base := by
    intro base life srcType sy hs hb
    unfold depreciateStep
    rw [if_pos hb]
    cases sy with
    | none => rfl
    | some y =>
        have hns : (if srcType = "" then "unknown" else srcType) ≠
            "stockpile" := by
          by_cases h0 : srcType = "" <;> simp [h0, hs]
        simp [hns]
  refine ⟨h1, ?_, h1 1000000 25 "new_production" (some 2024)
    (by decide) (by norm_num)⟩
  intro base life srcType hs
  unfold webFinal
  have hcond : ¬ (base ≠ 0 ∧ srcType = "stockpile") := fun hc => hs hc.2
  simp only [if_neg hcond]

/-- Witness for C7 with category "indirect" and with category "unknown". -/
theorem c7_depreciation_noop_off_stockpile_witness :
    depreciateStep 5 3 "indirect" (some 2024) = some 5 ∧
    webFinal 7 4 "unknown" = 7 :=
  ⟨c7_depreciation_noop_off_stockpile.1 5 3 "indirect" (some 2024)
      (by decide) (by norm_num),
   c7_depreciation_noop_off_stockpile.2.1 7 4 "unknown" (by decide)⟩

/-- C8: whenever the enrichment step sets a final depreciated value for a
record with non-negative base value — any source category, any useful
life, any evidence year — that value lies between 0 and the base value. -/
theorem c8_depreciation_bounds (base : ℚ) (life : Nat) (srcType : String)
    (sy : Option Int) (v : ℚ) (hb : 0 ≤ base)
    (hv : depreciateStep base life srcType sy = some v) :
    0 ≤ v ∧ v ≤ base := by
  unfold depreciateStep at hv
  by_cases hpos : 0 < base
  · rw [if_pos hpos] at hv
    cases sy with
    | none =>
        have hv2 : base = v := by simpa using Option.some.inj hv
        subst hv2
        exact ⟨le_of_lt hpos, le_refl base⟩
    | some y =>
        have hv2 : (if (if srcType = "" then "unknown" else srcType) =
            "stockpile" then stockpileDepreciation base life y else base)
            = v := by
          simpa using Option.some.inj hv
        by_cases hst :
            (if srcType = "" then "unknown" else srcType) = "stockpile"
        · rw [if_pos hst] at hv2
          subst hv2
          rw [stockpileDepreciation_eq, sub_sub_cancel]
          constructor
          · exact le_max_left 0 _
          · apply max_le hb
            have hnn : (0 : ℚ) ≤ (base / ((max 1 life : Nat) : ℚ)) *
                (((min (max 1 (life / 2)) 12 : Nat) : Int) : ℚ) := by
              apply mul_nonneg
              · exact div_nonneg hb (by positivity)
              · exact_mod_cast Int.natCast_nonneg _
            linarith
        · rw [if_neg hst] at hv2
          subst hv2
          exact ⟨le_of_lt hpos, le_refl base⟩
  · rw [if_neg hpos] at hv
    exact absurd hv (by simp)

/-- Witness for C8 at base 100, life 30, stockpile, year 2024 (where the
final value is 60). -/
theorem c8_depreciation_bounds_witness :
    (0 : ℚ) ≤ 60 ∧ (60 : ℚ) ≤ 100 :=
  c8_depreciation_bounds 100 30 "stockpile" (some 2024) 60
    (by norm_num)
    (by unfold depreciateStep stockpileDepreciation
        norm_num [max_def, min_def]
        decide)

/-!
Claims C4 and C5: selection among monetary mentions.
-/

/-- Membership is preserved by stable insertion. -/
lemma mem_insertDesc {x y : MCand} {l : List MCand} :
    y ∈ insertDesc x l ↔ y = x ∨ y ∈ l := by
  induction l with
  | nil => simp [insertDesc]
  | cons z zs ih =>
      by_cases h : z.eur ≤ x.eur
      · simp [insertDesc, h]
      · simp [insertDesc, h, ih]
        tauto

/-- Membership is preserved by the stable sort. -/
lemma mem_sortDesc {y : MCand} {l : List MCand} :
    y ∈ sortDesc l ↔ y ∈ l := by
  induction l with
  | nil => simp [sortDesc]
  | cons x xs ih =>
      simp [sortDesc, mem_insertDesc, ih]

/-- The sort of a non-empty list is non-empty. -/
lemma sortDesc_ne_nil {l : List MCand} (h : l ≠ []) : sortDesc l ≠ [] := by
  cases l with
  | nil => exact absurd rfl h
  | cons x xs =>
      simp only [sortDesc]
      cases hs : sortDesc xs with
      | nil => simp [insertDesc]
      | cons z zs =>
          by_cases hc : z.eur ≤ x.eur <;> simp [insertDesc, hc]

/-- The head of the stable sort dominates every element of the list. -/
lemma sortDesc_head_max {l : List MCand} {c : MCand} {r : List MCand}
    (h : sortDesc l = c :: r) : ∀ x ∈ l, x.eur ≤ c.eur := by
  induction l generalizing c r with
  | nil => simp [sortDesc] at h
  | cons x xs ih =>
      simp only [sortDesc] at h
      cases hs : sortDesc xs with
      | nil =>
          rw [hs] at h
          simp only [insertDesc] at h
          obtain ⟨hc, -⟩ := List.cons.inj h
          subst hc
          intro y hy
          rcases List.mem_cons.mp hy with hy | hy
          · subst hy; exact le_refl _
          · exact absurd ((mem_sortDesc).mpr hy) (by simp [hs])
      | cons z zs =>
          rw [hs] at h
          by_cases hc : z.eur ≤ x.eur
          · simp only [insertDesc, if_pos hc] at h
            obtain ⟨hcx, -⟩ := List.cons.inj h
            subst hcx
            intro y hy
            rcases List.mem_cons.mp hy with hy | hy
            · subst hy; exact le_refl _
            · exact le_trans (ih hs y hy) hc
          · simp only [insertDesc, if_neg hc] at h
            obtain ⟨hcz, -⟩ := List.cons.inj h
            subst hcz
            intro y hy
            rcases List.mem_cons.mp hy with hy | hy
            · subst hy; exact le_of_lt (lt_of_not_le hc)
            · exact ih hs y hy

/-- The head of the stable sort is the first element of the original list
attaining the maximum: everything before it is strictly smaller. -/
lemma sortDesc_head_first {l : List MCand} {c : MCand} {r : List MCand}
    (h : sortDesc l = c :: r) :
    ∃ l1 l2, l = l1 ++ c :: l2 ∧ ∀ x ∈ l1, x.eur < c.eur := by
  induction l generalizing c r with
  | nil => simp [sortDesc] at h
  | cons x xs ih =>
      simp only [sortDesc] at h
      cases hs : sortDesc xs with
      | nil =>
          rw [hs] at h
          simp only [insertDesc] at h
          obtain ⟨hc, -⟩ := List.cons.inj h
          subst hc
          exact ⟨[], xs, rfl, by simp⟩
      | cons z zs =>
          rw [hs] at h
          by_cases hc : z.eur ≤ x.eur
          · simp only [insertDesc, if_pos hc] at h
            obtain ⟨hcx, -⟩ := List.cons.inj h
            subst hcx
            exact ⟨[], xs, rfl, by simp⟩
          · simp only [insertDesc, if_neg hc] at h
            obtain ⟨hcz, -⟩ := List.cons.inj h
            subst hcz
            obtain ⟨l1, l2, hsplit, hlt⟩ := ih hs
            refine ⟨x :: l1, l2, by rw [hsplit]; simp, ?_⟩
            intro y hy
            rcases List.mem_cons.mp hy with hy | hy
            · subst hy; exact lt_of_not_le hc
            · exact hlt y hy

/-- If a decomposition pivot is not among the first block of a
concatenation, the first block is an initial segment of the part before
the pivot. -/
lemma block_before_pivot {l1 l2 bs as : List MCand} {c : MCand}
    (h : l1 ++ c :: l2 = bs ++ as) (hc : c ∉ bs) :
    ∃ m, l1 = bs ++ m := by
  induction bs generalizing l1 with
  | nil => exact ⟨l1, rfl⟩
  | cons b bs' ih =>
      cases l1 with
      | nil =>
          obtain ⟨hcb, -⟩ := List.cons.inj h
          exact absurd (hcb ▸ List.mem_cons_self b bs') hc
      | cons a l1' =>
          obtain ⟨hab, htail⟩ := List.cons.inj h
          obtain ⟨m, hm⟩ := ih htail (fun hmem => hc (List.mem_cons_of_mem b hmem))
          exact ⟨m, by rw [hab, hm]; rfl⟩

/-- C4 (counterexample): the claim fails on a text in which the prefix
grammar does find a currency-bearing mention — "€1.234,567.89" — yet no
mention is ever selected: converting the numeral raises the uncaught
`ValueError` of `_to_float` (modelled `none`), aborting the call. -/
theorem c4_selection_counterexample :
    findIter RX_BEFORE ("€1.234,567.89").data ≠ [] ∧
    extract_money_eurE ("€1.234,567.89").data = none := by
  refine ⟨?_, rfl⟩
  have h : (findIter RX_BEFORE ("€1.234,567.89").data).length = 1 := rfl
  intro he
  rw [he] at h
  exact absurd h (by decide)

/-- C4 (amended): on every text where the extraction call completes —
no scanned numeral raises — and finds at least one candidate, exactly one
is selected (`selCand` yields a single value); the selected candidate
attains the maximal converted value among all candidates; and on a tie
the selected candidate comes from the prefix grammar whenever any
prefix-grammar candidate attains that value — the stable descending sort
keeps prefix-grammar candidates, appended first, in front of equal-valued
suffix-grammar candidates. -/
theorem c4_money_mention_selection_amended :
    (∀ (t : List Char) (cands : List MCand),
      extract_money_candsE t = some cands → cands ≠ [] →
      ∃ c, selCand cands = some c) ∧
    (∀ (t : List Char) (bs as_ : List MCand) (c : MCand),
      candsBeforeE t = some bs → candsAfterE t = some as_ →
      selCand (bs ++ as_) = some c →
      c ∈ bs ++ as_ ∧
      (∀ x ∈ bs ++ as_, x.eur ≤ c.eur) ∧
      ((∃ b ∈ bs, b.eur = c.eur) → c ∈ bs)) := by
  constructor
  · intro t cands _ hne
    rcases hs : sortDesc cands with _ | ⟨c, r⟩
    · exact absurd hs (sortDesc_ne_nil hne)
    · exact ⟨c, by simp [selCand, hs]⟩
  · intro t bs as_ c _ _ hsel
    rcases hs : sortDesc (bs ++ as_) with _ | ⟨c', r⟩
    · simp [selCand, hs] at hsel
    · have hcc : c' = c := by simpa [selCand, hs] using hsel
      subst hcc
      refine ⟨?_, sortDesc_head_max hs, ?_⟩
      · exact (mem_sortDesc).mp (by simp [hs])
      · rintro ⟨b, hb, hbe⟩
        by_contra hnotb
        obtain ⟨l1, l2, hsplit, hlt⟩ := sortDesc_head_first hs
        obtain ⟨m, hm⟩ := block_before_pivot hsplit.symm hnotb
        have hbl1 : b ∈ l1 := hm ▸ List.mem_append_left m hb
        exact absurd hbe (ne_of_lt (hlt b hbl1))

/-- Witness for the amended C4 on a text holding a tied prefix mention
"€5" and suffix mentions; the selected candidate is the prefix one. -/
theorem c4_money_mention_selection_amended_witness :
    (⟨5, "EUR", "€5"⟩ : MCand) ∈ [(⟨5, "EUR", "€5"⟩ : MCand)] := by
  have hcb : candsBeforeE ("€5 and 5 eur").data =
      some [⟨5 * 1 * 1, "EUR", "€5"⟩] := rfl
  have hca : candsAfterE ("€5 and 5 eur").data =
      some [⟨5 * 1 * 1, "AND", "5 and"⟩, ⟨5 * 1 * 1, "EUR", "5 eur"⟩] := rfl
  have hone : (5 : ℚ) * 1 * 1 = 5 := by norm_num
  have hcb' : candsBeforeE ("€5 and 5 eur").data =
      some [⟨5, "EUR", "€5"⟩] := by rw [hcb, hone]
  have hca' : candsAfterE ("€5 and 5 eur").data =
      some [⟨5, "AND", "5 and"⟩, ⟨5, "EUR", "5 eur"⟩] := by
    rw [hca]
    simp only [hone]
  have hsel : selCand ([(⟨5, "EUR", "€5"⟩ : MCand)] ++
      [⟨5, "AND", "5 and"⟩, ⟨5, "EUR", "5 eur"⟩]) =
      some ⟨5, "EUR", "€5"⟩ := by
    norm_num [selCand, sortDesc, insertDesc]
  exact (c4_money_mention_selection_amended.2 ("€5 and 5 eur").data
    [⟨5, "EUR", "€5"⟩] [⟨5, "AND", "5 and"⟩, ⟨5, "EUR", "5 eur"⟩]
    ⟨5, "EUR", "€5"⟩ hcb' hca' hsel).2.2 ⟨⟨5, "EUR", "€5"⟩, by simp, rfl⟩

/-- C5 (counterexample): the for-all-inputs contract fails — on
"€1.234,567.89" the source's `extract_money_eur` raises an uncaught
`ValueError` instead of returning a value ≥ 0 or not_found: the numeral's
comma-removal leaves two dots and both `float` calls raise. -/
theorem c5_amount_counterexample :
    extract_money_eurE ("€1.234,567.89").data = none ∧
    to_floatE ("1.234,567.89").data = none :=
  ⟨rfl, rfl⟩

/-- C5 (amended): on every text where the extraction call completes, a
present value is strictly positive (never negative), and when the
top-ranked candidate's converted value is non-positive the call reports no
amount while still returning that candidate's currency code and matched
span. -/
theorem c5_amount_nonneg_amended :
    (∀ (t : List Char) (r : Option ℚ × Option String × Option String)
      (v : ℚ), extract_money_eurE t = some r → r.1 = some v → 0 ≤ v) ∧
    (∀ (t : List Char) (cands : List MCand) (c : MCand) (rest : List MCand),
      extract_money_candsE t = some cands → sortDesc cands = c :: rest →
      c.eur ≤ 0 →
      extract_money_eurE t = some (none, some c.cur, some c.frag)) := by
  constructor
  · intro t r v hr hv
    unfold extract_money_eurE at hr
    by_cases he : t.isEmpty
    · simp only [he, if_true] at hr
      rw [← Option.some.inj hr] at hv
      simp at hv
    · simp only [he, Bool.false_eq_true, if_false] at hr
      rcases hc : extract_money_candsE t with _ | cands
      · rw [hc] at hr; simp at hr
      · rw [hc] at hr
        have hr' : selectTop cands = r := by simpa using hr
        unfold selectTop at hr'
        rcases hs : selCand cands with _ | c
        · simp only [hs] at hr'
          rw [← hr'] at hv
          simp at hv
        · simp only [hs] at hr'
          by_cases hle : c.eur ≤ 0
          · rw [if_pos hle] at hr'
            rw [← hr'] at hv
            simp at hv
          · rw [if_neg hle] at hr'
            rw [← hr'] at hv
            have hvc : c.eur = v := by simpa using hv
            linarith [lt_of_not_le hle]
  · intro t cands c rest hc hs hle
    have hne : t.isEmpty = false := by
      cases ht : t with
      | nil =>
          exfalso
          rw [ht] at hc
          have h0 : extract_money_candsE ([] : List Char) = some [] := rfl
          rw [h0] at hc
          have : cands = [] := (Option.some.inj hc).symm
          rw [this] at hs
          exact List.noConfusion hs
      | cons a l => rfl
    unfold extract_money_eurE
    rw [hne, hc]
    simp only [Bool.false_eq_true, if_false, selectTop, selCand, hs,
      List.head?, if_pos hle]

/-- Witness for the amended C5: a positive extraction on "€5", and the
diagnostic behaviour on "€0", whose only candidate has value 0. -/
theorem c5_amount_nonneg_amended_witness :
    (0 : ℚ) ≤ 5 ∧
    extract_money_eurE ("€0").data = some (none, some "EUR", some "€0") := by
  have hc0 : extract_money_candsE ("€0").data =
      some [⟨0 * 1 * 1, "EUR", "€0"⟩] := rfl
  have hzero : (0 : ℚ) * 1 * 1 = 0 := by norm_num
  have hc0' : extract_money_candsE ("€0").data =
      some [⟨0, "EUR", "€0"⟩] := by rw [hc0, hzero]
  have hc5 : extract_money_candsE ("€5").data =
      some [⟨5 * 1 * 1, "EUR", "€5"⟩] := rfl
  have hone : (5 : ℚ) * 1 * 1 = 5 := by norm_num
  have hc5' : extract_money_candsE ("€5").data =
      some [⟨5, "EUR", "€5"⟩] := by rw [hc5, hone]
  have hval : extract_money_eurE ("€5").data =
      some (some 5, some "EUR", some "€5") := by
    unfold extract_money_eurE
    rw [show ("€5").data.isEmpty = false from rfl, hc5']
    norm_num [selectTop, selCand, sortDesc, insertDesc]
  refine ⟨c5_amount_nonneg_amended.1 ("€5").data
    (some 5, some "EUR", some "€5") 5 hval rfl, ?_⟩
  exact c5_amount_nonneg_amended.2 ("€0").data [⟨0, "EUR", "€0"⟩]
    ⟨0, "EUR", "€0"⟩ [] hc0' rfl (by norm_num)

/-!
Claim C6: locale-ambiguous numeric separators.
-/

/-- A digit run followed by a dot block: `takeWhile` stops at the dot. -/
lemma takeWhile_digits_dot (a f : List Char) (ha : ∀ c ∈ a, c.isDigit) :
    (a ++ '.' :: f).takeWhile Char.isDigit = a := by
  induction a with
  | nil => simp [List.takeWhile_cons]
  | cons c a' ih =>
      have hc : c.isDigit := ha c (List.mem_cons_self c a')
      simp only [List.cons_append, List.takeWhile_cons, hc, if_true]
      rw [ih (fun x hx => ha x (List.mem_cons_of_mem c hx))]

/-- A pure digit run is its own digit-`takeWhile`. -/
lemma takeWhile_digits_all (d : List Char) (hd : ∀ c ∈ d, c.isDigit) :
    d.takeWhile Char.isDigit = d := by
  induction d with
  | nil => rfl
  | cons c d' ih =>
      have hc : c.isDigit := hd c (List.mem_cons_self c d')
      simp only [List.takeWhile_cons, hc, if_true]
      rw [ih (fun x hx => hd x (List.mem_cons_of_mem c hx))]

/-- `pyFloat` on a pure digit string. -/
lemma pyFloat_digits (d : List Char) (hd : ∀ c ∈ d, c.isDigit)
    (hne : d ≠ []) : pyFloat d = some ((natOfDigits d : ℚ)) := by
  simp only [pyFloat]
  rw [takeWhile_digits_all d hd, List.drop_length]
  have hemp : d.isEmpty = false := by
    cases d with
    | nil => exact absurd rfl hne
    | cons c d' => rfl
  simp [hemp]

/-- `pyFloat` on digits, a dot, and digits. -/
lemma pyFloat_decimal (a f : List Char) (ha : ∀ c ∈ a, c.isDigit)
    (hf : ∀ c ∈ f, c.isDigit) (hne : a ≠ [] ∨ f ≠ []) :
    pyFloat (a ++ '.' :: f) =
      some ((natOfDigits a : ℚ) + (natOfDigits f : ℚ) / 10 ^ f.length) := by
  simp only [pyFloat]
  rw [takeWhile_digits_dot a f ha, List.drop_left]
  have hall : f.all Char.isDigit := List.all_eq_true.mpr (by
    intro c hc
    exact hf c hc)
  simp [hall, hne]

/-- A character present in a list gives a positive count. -/
lemma countc_pos_of_mem {c : Char} {s : List Char} (h : c ∈ s) :
    0 < countc c s := by
  unfold countc
  have : c ∈ s.filter (fun x => x = c) :=
    List.mem_filter.mpr ⟨h, by simp⟩
  exact List.length_pos.mpr (List.ne_nil_of_mem this)

/-- `rfindAux` ignores a block that does not contain the character. -/
lemma rfindAux_not_mem {c : Char} {xs : List Char} (h : c ∉ xs) :
    ∀ i acc, rfindAux c xs i acc = acc := by
  induction xs with
  | nil => intro i acc; rfl
  | cons x xs' ih =>
      intro i acc
      have hx : ¬ x = c := fun he =>
        h (he ▸ List.mem_cons_self x xs')
      simp only [rfindAux, hx, if_false]
      exact ih (fun hm => h (List.mem_cons_of_mem x hm)) _ _

/-- `rfindAux` either keeps its accumulator or produces an index inside the
scanned block. -/
lemma rfindAux_bounds {c : Char} (xs : List Char) :
    ∀ i acc, rfindAux c xs i acc = acc ∨
      (i ≤ rfindAux c xs i acc ∧ rfindAux c xs i acc < i + xs.length) := by
  induction xs with
  | nil => intro i acc; exact Or.inl rfl
  | cons x xs' ih =>
      intro i acc
      simp only [rfindAux]
      rcases ih (i + 1) (if x = c then i else acc) with h | ⟨h1, h2⟩
      · rw [h]
        by_cases hx : x = c
        · right
          rw [if_pos hx]
          constructor
          · exact le_refl i
          · simp only [List.length_cons]
            omega
        · left; rw [if_neg hx]
      · right
        refine ⟨by omega, ?_⟩
        simp only [List.length_cons]
        omega

/-- `rfindAux` over a concatenation scans the second block with the result
of the first as accumulator. -/
lemma rfindAux_append {c : Char} (xs ys : List Char) :
    ∀ i acc, rfindAux c (xs ++ ys) i acc =
      rfindAux c ys (i + xs.length) (rfindAux c xs i acc) := by
  induction xs with
  | nil => intro i acc; simp [rfindAux]
  | cons x xs' ih =>
      intro i acc
      simp only [List.cons_append, rfindAux, List.length_cons,
        List.append_eq]
      rw [ih]
      congr 1
      omega

/-- The last index of the marker `d` in `a ++ d :: f` is exactly `a.length`
when `d` occurs in neither block. -/
lemma rfindIdx_pivot {d : Char} {a f : List Char} (hna : d ∉ a)
    (hnf : d ∉ f) : rfindIdx d (a ++ d :: f) = a.length := by
  unfold rfindIdx
  rw [rfindAux_append, rfindAux_not_mem hna 0 (-1)]
  simp only [rfindAux]
  rw [rfindAux_not_mem hnf _ _]
  simp

/-- The last index of a character occurring only in the first block of
`a ++ d :: f` is strictly below `a.length`. -/
lemma rfindIdx_first_block {e d : Char} {a f : List Char} (hed : e ≠ d)
    (hnf : e ∉ f) : rfindIdx e (a ++ d :: f) < a.length := by
  unfold rfindIdx
  rw [rfindAux_append]
  have hde : ¬ d = e := fun h => hed h.symm
  simp only [rfindAux, if_neg hde]
  rw [rfindAux_not_mem hnf _ _]
  rcases rfindAux_bounds (c := e) a 0 (-1) with h | ⟨-, h2⟩
  · rw [h]
    have hnn : (0 : Int) ≤ a.length := Int.natCast_nonneg _
    omega
  · omega

/-- Mapping the comma-to-dot swap over a comma-free block is the
identity. -/
lemma map_comma_id {l : List Char} (h : ',' ∉ l) :
    l.map (fun c => if c = ',' then '.' else c) = l := by
  induction l with
  | nil => rfl
  | cons c l' ih =>
      have hc : ¬ c = ',' := fun he => h (he ▸ List.mem_cons_self c l')
      simp only [List.map_cons, if_neg hc]
      rw [ih (fun hm => h (List.mem_cons_of_mem c hm))]

/-- A digit is not a space, not a comma and not a dot. -/
lemma digit_ne_sep {c : Char} (h : c.isDigit) :
    c ≠ ' ' ∧ c ≠ ',' ∧ c ≠ '.' := by
  refine ⟨?_, ?_, ?_⟩ <;> intro he <;> subst he <;> simp at h

/-- The comma-decimal branch of `toFloatClean`: with the last separator a
comma, dots are dropped and the comma becomes the decimal point. -/
lemma toFloatClean_comma (a f : List Char) (hdot : '.' ∈ a) (hnc : ',' ∉ a)
    (ha : ∀ c ∈ a, c.isDigit ∨ c = '.') (hf : ∀ c ∈ f, c.isDigit) :
    toFloatClean (a ++ ',' :: f) = a.filter Char.isDigit ++ '.' :: f := by
  have hncf : ',' ∉ f := fun hm => ((digit_ne_sep (hf _ hm)).2.1) rfl
  have hndf : '.' ∉ f := fun hm => ((digit_ne_sep (hf _ hm)).2.2) rfl
  have hnsp : (a ++ ',' :: f).filter (fun c => c ≠ ' ') = a ++ ',' :: f := by
    rw [List.filter_eq_self]
    intro c hc
    rcases List.mem_append.mp hc with hc | hc
    · rcases ha c hc with h | h
      · simp [(digit_ne_sep h).1]
      · subst h; decide
    · rcases List.mem_cons.mp hc with hc | hc
      · subst hc; decide
      · simp [(digit_ne_sep (hf c hc)).1]
  unfold toFloatClean
  rw [hnsp]
  have hc1 : 0 < countc ',' (a ++ ',' :: f) :=
    countc_pos_of_mem (List.mem_append_right a (List.mem_cons_self _ _))
  have hc2 : 0 < countc '.' (a ++ ',' :: f) :=
    countc_pos_of_mem (List.mem_append_left _ hdot)
  rw [if_pos ⟨hc1, hc2⟩]
  have hlt : rfindIdx '.' (a ++ ',' :: f) < rfindIdx ',' (a ++ ',' :: f) := by
    rw [rfindIdx_pivot hnc hncf]
    exact rfindIdx_first_block (by decide) hndf
  rw [if_pos hlt]
  rw [List.filter_append, List.filter_cons]
  have hfid : f.filter (fun c => c ≠ '.') = f := by
    rw [List.filter_eq_self]
    intro c hc
    simp [(digit_ne_sep (hf c hc)).2.2]
  have haf : a.filter (fun c => c ≠ '.') = a.filter Char.isDigit := by
    apply List.filter_congr
    intro c hc
    rcases ha c hc with h | h
    · simp [h, (digit_ne_sep h).2.2]
    · subst h; decide
  rw [hfid, haf]
  rw [List.map_append,
    map_comma_id (fun hm => hnc (List.mem_of_mem_filter hm))]
  norm_num
  rw [if_neg (show ¬ (',' = '.') by decide)]
  simp [map_comma_id hncf]

/-- The dot-decimal branch of `toFloatClean`: with the last separator a
dot, commas are dropped as thousands separators. -/
lemma toFloatClean_dot (a f : List Char) (hcom : ',' ∈ a) (hnd : '.' ∉ a)
    (ha : ∀ c ∈ a, c.isDigit ∨ c = ',') (hf : ∀ c ∈ f, c.isDigit) :
    toFloatClean (a ++ '.' :: f) = a.filter Char.isDigit ++ '.' :: f := by
  have hncf : ',' ∉ f := fun hm => ((digit_ne_sep (hf _ hm)).2.1) rfl
  have hndf : '.' ∉ f := fun hm => ((digit_ne_sep (hf _ hm)).2.2) rfl
  have hnsp : (a ++ '.' :: f).filter (fun c => c ≠ ' ') = a ++ '.' :: f := by
    rw [List.filter_eq_self]
    intro c hc
    rcases List.mem_append.mp hc with hc | hc
    · rcases ha c hc with h | h
      · simp [(digit_ne_sep h).1]
      · subst h; decide
    · rcases List.mem_cons.mp hc with hc | hc
      · subst hc; decide
      · simp [(digit_ne_sep (hf c hc)).1]
  unfold toFloatClean
  rw [hnsp]
  have hc1 : 0 < countc ',' (a ++ '.' :: f) :=
    countc_pos_of_mem (List.mem_append_left _ hcom)
  have hc2 : 0 < countc '.' (a ++ '.' :: f) :=
    countc_pos_of_mem (List.mem_append_right a (List.mem_cons_self _ _))
  rw [if_pos ⟨hc1, hc2⟩]
  have hnlt : ¬ rfindIdx '.' (a ++ '.' :: f) <
      rfindIdx ',' (a ++ '.' :: f) := by
    rw [rfindIdx_pivot hnd hndf]
    have := rfindIdx_first_block (e := ',') (d := '.') (a := a) (f := f)
      (by decide) hncf
    omega
  rw [if_neg hnlt]
  rw [List.filter_append, List.filter_cons]
  have hfid : f.filter (fun c => c ≠ ',') = f := by
    rw [List.filter_eq_self]
    intro c hc
    simp [(digit_ne_sep (hf c hc)).2.1]
  have haf : a.filter (fun c => c ≠ ',') = a.filter Char.isDigit := by
    apply List.filter_congr
    intro c hc
    rcases ha c hc with h | h
    · simp [h, (digit_ne_sep h).2.1]
    · subst h; decide
  rw [hfid, haf]
  norm_num
  decide

/-- The comma-only branch of `toFloatClean`: commas are dropped as
thousands separators. -/
lemma toFloatClean_onlyComma (s : List Char)
    (hs : ∀ c ∈ s, c.isDigit ∨ c = ',') :
    toFloatClean s = s.filter Char.isDigit := by
  have hnsp : s.filter (fun c => c ≠ ' ') = s := by
    rw [List.filter_eq_self]
    intro c hc
    rcases hs c hc with h | h
    · simp [(digit_ne_sep h).1]
    · subst h; decide
  unfold toFloatClean
  rw [hnsp]
  have hnd : countc '.' s = 0 := by
    unfold countc
    rw [List.length_eq_zero, List.filter_eq_nil_iff]
    intro c hc
    simp only [decide_eq_true_eq]
    intro he
    rcases hs c hc with h | h
    · exact (digit_ne_sep h).2.2 he
    · subst h
      exact absurd he (by decide)
  have hcond : ¬ (0 < countc ',' s ∧ 0 < countc '.' s) := by
    intro hc
    omega
  rw [if_neg hcond]
  apply List.filter_congr
  intro c hc
  rcases hs c hc with h | h
  · simp [h, (digit_ne_sep h).2.1]
  · subst h; decide

/-- C6 (counterexample): the claim's rule — with both separators present
the one occurring last is the decimal point — fails on "1.234,567.89", a
string the money grammar's numeral pattern can produce: the code drops the
commas, leaves two dots, and both `float` calls raise, so `_to_float`
propagates a `ValueError` (modelled as `none`) instead of parsing
1234567.89. -/
theorem c6_separator_counterexample :
    to_floatE ("1.234,567.89").data = none ∧
    to_floatE ("1.234,567.89").data ≠
      some ((1234567 : ℚ) + 89 / 100) := by
  have h0 : to_floatE ("1.234,567.89").data = none := rfl
  refine ⟨h0, ?_⟩
  rw [h0]
  exact fun h => Option.noConfusion h

/-- C6 (amended): on numeral strings whose trailing separator occurs once
and whose other characters are digits or the other separator, whichever
separator occurs last is the decimal point — a trailing comma after a
dotted group parses with the comma as decimal point, a trailing dot after
a comma group parses with the dot as decimal point — a string with commas
only treats them as thousands separators, and the three concrete spec
instances parse to 1234.56, 1234.56 and 1234. -/
theorem c6_ambiguous_separators_amended :
    (∀ a f : List Char, '.' ∈ a → ',' ∉ a →
      (∀ c ∈ a, c.isDigit ∨ c = '.') → f ≠ [] → (∀ c ∈ f, c.isDigit) →
      to_floatE (a ++ ',' :: f) =
        some ((natOfDigits (a.filter Char.isDigit) : ℚ) +
          (natOfDigits f : ℚ) / 10 ^ f.length)) ∧
    (∀ a f : List Char, ',' ∈ a → '.' ∉ a →
      (∀ c ∈ a, c.isDigit ∨ c = ',') → f ≠ [] → (∀ c ∈ f, c.isDigit) →
      to_floatE (a ++ '.' :: f) =
        some ((natOfDigits (a.filter Char.isDigit) : ℚ) +
          (natOfDigits f : ℚ) / 10 ^ f.length)) ∧
    (∀ s : List Char, ',' ∈ s → (∀ c ∈ s, c.isDigit ∨ c = ',') →
      (∃ c ∈ s, c.isDigit) →
      to_floatE s = some ((natOfDigits (s.filter Char.isDigit) : ℚ))) ∧
    to_float ("1.234,56").data = 123456 / 100 ∧
    to_float ("1,234.56").data = 123456 / 100 ∧
    to_float ("1,234").data = 1234 := by
  have hdigf : ∀ (l : List Char), ∀ c ∈ l.filter Char.isDigit, c.isDigit :=
    fun l c hc => (List.mem_filter.mp hc).2
  refine ⟨?_, ?_, ?_, ?_, ?_, ?_⟩
  · intro a f hdot hnc ha hfne hf
    have hclean := toFloatClean_comma a f hdot hnc ha hf
    have hpf := pyFloat_decimal (a.filter Char.isDigit) f (hdigf a) hf
      (Or.inr hfne)
    simp only [to_floatE]
    rw [hclean, hpf]
  · intro a f hcom hnd ha hfne hf
    have hclean := toFloatClean_dot a f hcom hnd ha hf
    have hpf := pyFloat_decimal (a.filter Char.isDigit) f (hdigf a) hf
      (Or.inr hfne)
    simp only [to_floatE]
    rw [hclean, hpf]
  · intro s hcom hs hex
    have hclean := toFloatClean_onlyComma s hs
    obtain ⟨c, hc, hcd⟩ := hex
    have hne : s.filter Char.isDigit ≠ [] :=
      List.ne_nil_of_mem (List.mem_filter.mpr ⟨hc, hcd⟩)
    have hpf := pyFloat_digits (s.filter Char.isDigit) (hdigf s) hne
    simp only [to_floatE]
    rw [hclean, hpf]
  · have h : to_float ("1.234,56").data =
        ((1234 : ℕ) : ℚ) + ((56 : ℕ) : ℚ) / 10 ^ 2 := rfl
    rw [h]
    norm_num
  · have h : to_float ("1,234.56").data =
        ((1234 : ℕ) : ℚ) + ((56 : ℕ) : ℚ) / 10 ^ 2 := rfl
    rw [h]
    norm_num
  · have h : to_float ("1,234").data = ((1234 : ℕ) : ℚ) := rfl
    rw [h]
    norm_num

/-- Witness for the amended C6: "12.3,4" parses with the trailing comma as
decimal point, and "7,5" with the comma as a thousands separator. -/
theorem c6_ambiguous_separators_amended_witness :
    to_floatE (("12.3").data ++ ',' :: ("4").data) =
      some ((natOfDigits (("12.3").data.filter Char.isDigit) : ℚ) +
        (natOfDigits ("4").data : ℚ) / 10 ^ ("4").data.length) ∧
    to_floatE ("7,5").data =
      some ((natOfDigits (("7,5").data.filter Char.isDigit) : ℚ)) :=
  ⟨c6_ambiguous_separators_amended.1 ("12.3").data ("4").data
      (by decide) (by decide) (by decide) (by decide) (by decide),
   c6_ambiguous_separators_amended.2.2.1 ("7,5").data
      (by decide) (by decide) (by decide)⟩


/-!
Claim C1: merge non-destructiveness.
-/

/-- `mergeItems` touches only the item-text field. -/
lemma mergeItems_proj (row : Row) (res : ParseResult) :
    (mergeItems row res).month = row.month ∧
    (mergeItems row res).baseValue = row.baseValue ∧
    (mergeItems row res).status = row.status ∧
    (mergeItems row res).evidenceMonth = row.evidenceMonth ∧
    (mergeItems row res).sources = row.sources ∧
    (mergeItems row res).sourceType = row.sourceType ∧
    (mergeItems row res).productionYear = row.productionYear ∧
    (mergeItems row res).usefulLife = row.usefulLife ∧
    (mergeItems row res).trainingValue = row.trainingValue := by
  simp only [mergeItems]
  split_ifs <;> exact ⟨rfl, rfl, rfl, rfl, rfl, rfl, rfl, rfl, rfl⟩

/-- The item text after `mergeItems`: unchanged, or the capped append. -/
lemma mergeItems_desc (row : Row) (res : ParseResult) :
    (mergeItems row res).desc = row.desc ∨
    (mergeItems row res).desc = String.mk
      ((pyStrip row.desc.data ++
        (if (pyStrip row.desc.data).isEmpty then [] else ("; ").data) ++
        pyStrip res.items.data).take 6000) := by
  simp only [mergeItems]
  split_ifs <;> first | exact Or.inl rfl | exact Or.inr rfl

/-- `mergeFill` touches only status, evidence month and source type. -/
lemma mergeFill_proj (row : Row) (res : ParseResult) :
    (mergeFill row res).month = row.month ∧
    (mergeFill row res).baseValue = row.baseValue ∧
    (mergeFill row res).desc = row.desc ∧
    (mergeFill row res).sources = row.sources ∧
    (mergeFill row res).productionYear = row.productionYear ∧
    (mergeFill row res).usefulLife = row.usefulLife ∧
    (mergeFill row res).trainingValue = row.trainingValue :=
  ⟨rfl, rfl, rfl, rfl, rfl, rfl, rfl⟩

/-- `mergeFill` keeps a non-blank status. -/
lemma mergeFill_status (row : Row) (res : ParseResult)
    (h : row.status ≠ "") : (mergeFill row res).status = row.status := by
  show (if row.status ≠ "" then row.status else _) = row.status
  rw [if_pos h]

/-- `mergeFill` keeps a non-blank evidence month. -/
lemma mergeFill_evMonth (row : Row) (res : ParseResult)
    (h : row.evidenceMonth ≠ "") :
    (mergeFill row res).evidenceMonth = row.evidenceMonth := by
  show (if row.evidenceMonth ≠ "" then row.evidenceMonth else _)
    = row.evidenceMonth
  rw [if_pos h]

/-- `mergeFill` keeps a non-blank source type. -/
lemma mergeFill_srcType (row : Row) (res : ParseResult)
    (h : row.sourceType ≠ "") :
    (mergeFill row res).sourceType = row.sourceType := by
  show (if row.sourceType ≠ "" then row.sourceType else _) = row.sourceType
  rw [if_pos h]

/-- `mergeAmount` touches only the base value. -/
lemma mergeAmount_proj (row : Row) (res : ParseResult) :
    (mergeAmount row res).month = row.month ∧
    (mergeAmount row res).desc = row.desc ∧
    (mergeAmount row res).status = row.status ∧
    (mergeAmount row res).evidenceMonth = row.evidenceMonth ∧
    (mergeAmount row res).sources = row.sources ∧
    (mergeAmount row res).sourceType = row.sourceType ∧
    (mergeAmount row res).productionYear = row.productionYear ∧
    (mergeAmount row res).usefulLife = row.usefulLife ∧
    (mergeAmount row res).trainingValue = row.trainingValue := by
  rcases hve : res.value_eur with _ | v <;>
    simp only [mergeAmount, hve] <;>
    split_ifs <;> exact ⟨rfl, rfl, rfl, rfl, rfl, rfl, rfl, rfl, rfl⟩

/-- `mergeAmount` keeps an already-positive base value. -/
lemma mergeAmount_keeps_positive (row : Row) (res : ParseResult) (v : ℚ)
    (hb : row.baseValue = some v) (hv : 0 < v) :
    (mergeAmount row res).baseValue = some v := by
  simp only [mergeAmount]
  rw [hb]
  simp [hv, hb]

/-- `mergeDerived` touches only the useful-life and final-value fields. -/
lemma mergeDerived_proj (row : Row) :
    (mergeDerived row).month = row.month ∧
    (mergeDerived row).baseValue = row.baseValue ∧
    (mergeDerived row).desc = row.desc ∧
    (mergeDerived row).status = row.status ∧
    (mergeDerived row).evidenceMonth = row.evidenceMonth ∧
    (mergeDerived row).sources = row.sources ∧
    (mergeDerived row).sourceType = row.sourceType ∧
    (mergeDerived row).productionYear = row.productionYear ∧
    (mergeDerived row).trainingValue = row.trainingValue := by
  simp only [mergeDerived]
  split_ifs <;> exact ⟨rfl, rfl, rfl, rfl, rfl, rfl, rfl, rfl, rfl⟩

/-- A row with a pre-set Useful Life, used to exercise the merge step. -/
def c1Row0 : Row :=
  { month := "", baseValue := some 5, desc := "", status := "Done",
    evidenceMonth := "", sources := "", sourceType := "",
    productionYear := "", usefulLife := some 7, trainingValue := "",
    finalValue := none }

/-- A parse result carrying an item signal, as returned by `parse_source`
for a document naming a Javelin. -/
def c1Res0 : ParseResult :=
  { status := some "Delivered/Disbursed", evidence_month := none,
    items := "Javelin", source_type := some "unknown", raw_text := "",
    value_eur := none, money_evidence := none }

/-- C1 (counterexample): the universal retain clause fails — the merge
step recomputes the Useful Life field from the (updated) item text on
every run, overwriting a non-empty previous value: a row with Useful Life
7 merged with Javelin item evidence ends with Useful Life 15 (the default
category), so a non-empty field does not retain its value. -/
theorem c1_merge_counterexample :
    c1Row0.usefulLife = some 7 ∧
    (mergeRow c1Row0 c1Res0).usefulLife = some 15 ∧
    (mergeRow c1Row0 c1Res0).usefulLife ≠ c1Row0.usefulLife := by
  refine ⟨rfl, rfl, ?_⟩
  intro h
  rw [(rfl : (mergeRow c1Row0 c1Res0).usefulLife = some 15),
    (rfl : c1Row0.usefulLife = some 7)] at h
  exact absurd (Option.some.inj h) (by decide)

/-- C1 (amended): the merge step fills status, evidence month and source
category only when blank; keeps an already-positive amount; appends item
text — the stripped old text survives at the front of the capped result —
rather than replacing it; and leaves Month, Sources, Production Year and
Training Value untouched.  (Useful Life and Final Depreciated Value are
recomputed on every merge, per the counterexample.) -/
theorem c1_merge_policy_amended (row : Row) (res : ParseResult) :
    (row.status ≠ "" → (mergeRow row res).status = row.status) ∧
    (row.evidenceMonth ≠ "" →
      (mergeRow row res).evidenceMonth = row.evidenceMonth) ∧
    (row.sourceType ≠ "" →
      (mergeRow row res).sourceType = row.sourceType) ∧
    (∀ v : ℚ, row.baseValue = some v → 0 < v →
      (mergeRow row res).baseValue = some v) ∧
    ((mergeRow row res).desc = row.desc ∨
      (mergeRow row res).desc = String.mk
        ((pyStrip row.desc.data ++
          (if (pyStrip row.desc.data).isEmpty then [] else ("; ").data) ++
          pyStrip res.items.data).take 6000)) ∧
    (mergeRow row res).month = row.month ∧
    (mergeRow row res).sources = row.sources ∧
    (mergeRow row res).productionYear = row.productionYear ∧
    (mergeRow row res).trainingValue = row.trainingValue := by
  have hI := mergeItems_proj row res
  have hIdesc := mergeItems_desc row res
  have hF := mergeFill_proj (mergeItems row res) res
  have hA := mergeAmount_proj (mergeFill (mergeItems row res) res) res
  have hD := mergeDerived_proj
    (mergeAmount (mergeFill (mergeItems row res) res) res)
  unfold mergeRow
  refine ⟨?_, ?_, ?_, ?_, ?_, ?_, ?_, ?_, ?_⟩
  · intro h
    rw [hD.2.2.2.1, hA.2.2.1,
      mergeFill_status _ _ (by rw [hI.2.2.1]; exact h), hI.2.2.1]
  · intro h
    rw [hD.2.2.2.2.1, hA.2.2.2.1,
      mergeFill_evMonth _ _ (by rw [hI.2.2.2.1]; exact h), hI.2.2.2.1]
  · intro h
    rw [hD.2.2.2.2.2.2.1, hA.2.2.2.2.2.1,
      mergeFill_srcType _ _ (by rw [hI.2.2.2.2.2.1]; exact h),
      hI.2.2.2.2.2.1]
  · intro v hb hv
    rw [hD.2.1, mergeAmount_keeps_positive _ _ v
      (by rw [hF.2.1, hI.2.1]; exact hb) hv]
  · rw [hD.2.2.1, hA.2.1, hF.2.2.1]
    exact hIdesc
  · rw [hD.1, hA.1, hF.1, hI.1]
  · rw [hD.2.2.2.2.2.1, hA.2.2.2.2.1, hF.2.2.2.1, hI.2.2.2.2.1]
  · rw [hD.2.2.2.2.2.2.2.1, hA.2.2.2.2.2.2.1, hF.2.2.2.2.1,
      hI.2.2.2.2.2.2.1]
  · rw [hD.2.2.2.2.2.2.2.2, hA.2.2.2.2.2.2.2.2, hF.2.2.2.2.2.2,
      hI.2.2.2.2.2.2.2.2]

/-- Witness for the amended C1 on a concrete pre-filled row: the set
status survives the merge. -/
theorem c1_merge_policy_amended_witness :
    (mergeRow c1Row0 c1Res0).status = "Done" :=
  (c1_merge_policy_amended c1Row0 c1Res0).1 (by decide)

/-!
Claim C9: cache idempotence of `fetch_text`.
-/

/-- C9 (counterexample): a fetch that raises is not cached, so fetching
the same URL twice over a failing network performs two network calls —
the claim's "exactly one network call" does not hold for every URL.  (The
two results are still byte-identical empty results.) -/
theorem c9_cache_counterexample :
    (fetch_text (fun _ => none) none (fun s => s) []
        "http://a.example/x").2.2 +
      (fetch_text (fun _ => none) none (fun s => s)
        (fetch_text (fun _ => none) none (fun s => s) []
          "http://a.example/x").2.1 "http://a.example/x").2.2 = 2 := rfl

/-- C9 (amended): the cache lookup precedes the network and a hit returns
immediately with zero network calls; for a URL whose first fetch succeeds
and is cacheable — an HTML response, or a PDF response with the extractor
available — the first call performs exactly one network call, the second
performs none, and returns byte-identical content; failed fetches are not
cached and are retried (per the counterexample), still returning identical
empty content. -/
theorem c9_cache_idempotence_amended :
    (∀ (net : String → Option Page) (pdfx : Option (String → String))
      (htmlx : String → String) (cache : FetchCache) (u k t : String),
      cacheGet cache u = some (k, t) →
      fetch_text net pdfx htmlx cache u = ((k, t), cache, 0)) ∧
    (∀ (net : String → Option Page) (pdfx : Option (String → String))
      (htmlx : String → String) (cache : FetchCache) (u : String)
      (p : Page), cacheGet cache u = none → net u = some p →
      ¬ (strIn ("application/pdf").data (lowerS p.ctype.data)
        ∨ endsWith ".pdf" (String.mk (lowerS u.data))) →
      (fetch_text net pdfx htmlx cache u).2.2 = 1 ∧
      (fetch_text net pdfx htmlx
        (fetch_text net pdfx htmlx cache u).2.1 u).2.2 = 0 ∧
      (fetch_text net pdfx htmlx
        (fetch_text net pdfx htmlx cache u).2.1 u).1 =
        (fetch_text net pdfx htmlx cache u).1) ∧
    (∀ (net : String → Option Page) (f htmlx : String → String)
      (cache : FetchCache) (u : String) (p : Page),
      cacheGet cache u = none → net u = some p →
      (strIn ("application/pdf").data (lowerS p.ctype.data)
        ∨ endsWith ".pdf" (String.mk (lowerS u.data))) →
      (fetch_text net (some f) htmlx cache u).2.2 = 1 ∧
      (fetch_text net (some f) htmlx
        (fetch_text net (some f) htmlx cache u).2.1 u).2.2 = 0 ∧
      (fetch_text net (some f) htmlx
        (fetch_text net (some f) htmlx cache u).2.1 u).1 =
        (fetch_text net (some f) htmlx cache u).1) := by
  have hhit : ∀ (net : String → Option Page)
      (pdfx : Option (String → String)) (htmlx : String → String)
      (cache : FetchCache) (u k t : String),
      cacheGet cache u = some (k, t) →
      fetch_text net pdfx htmlx cache u = ((k, t), cache, 0) := by
    intro net pdfx htmlx cache u k t hc
    unfold fetch_text
    rw [hc]
  refine ⟨hhit, ?_, ?_⟩
  · intro net pdfx htmlx cache u p hc hn hnp
    have h1 : fetch_text net pdfx htmlx cache u =
        (("html", htmlx p.body), (u, "html", htmlx p.body) :: cache, 1) := by
      unfold fetch_text
      rw [hc, hn]
      simp only [if_neg hnp]
    rw [h1]
    have hc2 : cacheGet ((u, "html", htmlx p.body) :: cache) u =
        some ("html", htmlx p.body) := by
      unfold cacheGet
      simp [List.find?]
    rw [hhit net pdfx htmlx _ u _ _ hc2]
    exact ⟨rfl, rfl, rfl⟩
  · intro net f htmlx cache u p hc hn hp
    have h1 : fetch_text net (some f) htmlx cache u =
        (("pdf", f p.body), (u, "pdf", f p.body) :: cache, 1) := by
      unfold fetch_text
      rw [hc, hn]
      simp only [if_pos hp]
    rw [h1]
    have hc2 : cacheGet ((u, "pdf", f p.body) :: cache) u =
        some ("pdf", f p.body) := by
      unfold cacheGet
      simp [List.find?]
    rw [hhit net (some f) htmlx _ u _ _ hc2]
    exact ⟨rfl, rfl, rfl⟩

/-- Witness for the amended C9: a concrete successful HTML fetch is cached
after one network call and replayed from the cache with none. -/
theorem c9_cache_idempotence_amended_witness :
    (fetch_text (fun _ => some ⟨"text/html", "B"⟩) none (fun s => s) []
        "http://a.example/p").2.2 = 1 ∧
    (fetch_text (fun _ => some ⟨"text/html", "B"⟩) none (fun s => s)
      (fetch_text (fun _ => some ⟨"text/html", "B"⟩) none (fun s => s) []
        "http://a.example/p").2.1 "http://a.example/p").2.2 = 0 ∧
    (fetch_text (fun _ => some ⟨"text/html", "B"⟩) none (fun s => s)
      (fetch_text (fun _ => some ⟨"text/html", "B"⟩) none (fun s => s) []
        "http://a.example/p").2.1 "http://a.example/p").1 =
      (fetch_text (fun _ => some ⟨"text/html", "B"⟩) none (fun s => s) []
        "http://a.example/p").1 :=
  c9_cache_idempotence_amended.2.1 (fun _ => some ⟨"text/html", "B"⟩)
    none (fun s => s) [] "http://a.example/p" ⟨"text/html", "B"⟩
    rfl rfl (by decide)

/-!
Claim C10: the resolved URL-candidate list.
-/

/-- The deduplication loop keeps its accumulator duplicate-free. -/
lemma pyUniq_go_nodup {α : Type} [DecidableEq α] (l : List α) :
    ∀ acc : List α, acc.Nodup → (pyUniq.go acc l).Nodup := by
  induction l with
  | nil => intro acc h; exact h
  | cons x xs ih =>
      intro acc h
      simp only [pyUniq.go]
      by_cases hx : x ∈ acc
      · rw [if_pos hx]
        exact ih acc h
      · rw [if_neg hx]
        apply ih
        rw [List.nodup_append]
        exact ⟨h, List.nodup_singleton x,
          fun a ha hb => hx ((List.mem_singleton.mp hb) ▸ ha)⟩

/-- `pyUniq` produces a duplicate-free list. -/
lemma pyUniq_nodup {α : Type} [DecidableEq α] (l : List α) :
    (pyUniq l).Nodup :=
  pyUniq_go_nodup l [] List.nodup_nil

/-- C10: for every Google-resolution oracle and every Sources cell, the
resolved target-URL candidate list is deduplicated and holds at most two
URLs, however many search or direct URLs the cell lists. -/
theorem c10_candidate_bound (g : String → Option String) (src : String) :
    (resolve_url_candidates g src).length ≤ 2 ∧
    (resolve_url_candidates g src).Nodup := by
  unfold resolve_url_candidates
  constructor
  · rw [List.length_take]
    exact min_le_left 2 _
  · exact (List.take_sublist 2 _).nodup (pyUniq_nodup _)

/-!
Claim C2: the end-to-end scenario.
-/

/-- The scenario document text of the spec's end-to-end example. -/
def scenarioText : List Char :=
  ("155mm shells delivered to Ukraine in March 2023, 10,000 rounds, from stockpiles").data

/-- The scenario record: description "unknown", everything else blank. -/
def scenarioRow : Row :=
  { month := "", baseValue := none, desc := "unknown", status := "",
    evidenceMonth := "", sources := "", sourceType := "",
    productionYear := "", usefulLife := none, trainingValue := "",
    finalValue := none }

/-- What `parse_source` actually produces on the scenario text. -/
def scenarioParse : ParseResult :=
  { status := some "Delivered/Disbursed",
    evidence_month := some "2023-03",
    items := "155 mm shells delivered to; 10000 rounds",
    source_type := some "stockpile",
    raw_text := "155mm shells delivered to Ukraine in March 2023, 10,000 rounds, from stockpiles",
    value_eur := some 10000,
    money_evidence := some "10,000 rou" }

/-- C2 (counterexample): the quantity grammar never yields the claimed
item "10000 155mm rounds" on the scenario text — greedy matching consumes
"155mm" into the first label "155 mm shells delivered to" and yields
"10000 rounds" for the second — and consequently the valuation estimator
prices the text at 0, not at the claimed 10,000 × the 155mm unit price
(which would have been 35,000,000). -/
theorem c2_scenario_counterexample :
    ("10000 155mm rounds" ∉ extract_item_counts scenarioText) ∧
    (estimate_value_from_text scenarioText).1 = 0 ∧
    (estimate_value_from_count_labels ["10000 155mm rounds"]).1 =
      35000000 := by
  have hitems : extract_item_counts scenarioText =
      ["155 mm shells delivered to", "10000 rounds"] := rfl
  refine ⟨?_, rfl, ?_⟩
  · rw [hitems]
    decide
  · have h : (estimate_value_from_count_labels ["10000 155mm rounds"]).1 =
        0 + ((10000 : ℕ) : ℚ) * 3500 := rfl
    rw [h]
    norm_num

/-- The converted amount found on the scenario text: the suffix grammar
reads "10,000 rou" — the first three letters of "rounds" pass as a bare
currency code "ROU", converted at the unknown-code fallback rate 1. -/
lemma scenario_money :
    extract_money_eur scenarioText =
      (some 10000, some "ROU", some "10,000 rou") := by
  have hc : extract_money_candsE scenarioText =
      some [⟨10000 * 1 * 1, "ROU", "10,000 rou"⟩] := rfl
  have hten : (10000 : ℚ) * 1 * 1 = 10000 := by norm_num
  have hc' : extract_money_candsE scenarioText =
      some [⟨10000, "ROU", "10,000 rou"⟩] := by rw [hc, hten]
  unfold extract_money_eur extract_money_eurE
  rw [show scenarioText.isEmpty = false from rfl, hc']
  norm_num [selectTop, selCand, sortDesc, insertDesc]

/-- The classifier output on the scenario text equals `scenarioParse`. -/
lemma scenario_parse_eq :
    parse_source_text scenarioText = scenarioParse := by
  have h1 : parse_source_text scenarioText =
      { status := some "Delivered/Disbursed",
        evidence_month := some "2023-03",
        items := "155 mm shells delivered to; 10000 rounds",
        source_type := some "stockpile",
        raw_text := "155mm shells delivered to Ukraine in March 2023, 10,000 rounds, from stockpiles",
        value_eur := (extract_money_eur scenarioText).1,
        money_evidence := (extract_money_eur scenarioText).2.2 } := rfl
  rw [h1, scenario_money]
  rfl

/-- C2 (amended): on the scenario text the code yields status
"Delivered/Disbursed", source category "stockpile", evidence month
"2023-03" (external date search modelled as an English month-year finder),
the item labels "155 mm shells delivered to" and "10000 rounds" — not the
claimed "10000 155mm rounds" — an extracted amount of 10,000 (the token
"rou" read as currency code ROU at the fallback rate 1) rather than
10,000 × the catalog unit price, useful life 0 (ammunition), and stockpile
depreciation with `life or 1` collapsing the full base into year one, so
the final depreciated value is 0. -/
theorem c2_end_to_end_amended :
    infer_status scenarioText = "Delivered/Disbursed" ∧
    source_type scenarioText = "stockpile" ∧
    (parse_source_text scenarioText).evidence_month = some "2023-03" ∧
    extract_item_counts scenarioText =
      ["155 mm shells delivered to", "10000 rounds"] ∧
    extract_money_eur scenarioText =
      (some 10000, some "ROU", some "10,000 rou") ∧
    (mergeRow scenarioRow (parse_source_text scenarioText)).status =
      "Delivered/Disbursed" ∧
    (mergeRow scenarioRow (parse_source_text scenarioText)).evidenceMonth =
      "2023-03" ∧
    (mergeRow scenarioRow (parse_source_text scenarioText)).sourceType =
      "stockpile" ∧
    (mergeRow scenarioRow (parse_source_text scenarioText)).desc =
      "unknown; 155 mm shells delivered to; 10000 rounds" ∧
    (mergeRow scenarioRow (parse_source_text scenarioText)).baseValue =
      some 10000 ∧
    (mergeRow scenarioRow (parse_source_text scenarioText)).usefulLife =
      some 0 ∧
    (mergeRow scenarioRow (parse_source_text scenarioText)).finalValue =
      some 0 := by
  have hsd : stockpileDepreciation 10000 0 2023 = 0 := by
    unfold stockpileDepreciation
    norm_num [max_def, min_def]
  have hmerge : mergeRow scenarioRow scenarioParse =
      { month := "", baseValue := some 10000,
        desc := "unknown; 155 mm shells delivered to; 10000 rounds",
        status := "Delivered/Disbursed", evidenceMonth := "2023-03",
        sources := "", sourceType := "stockpile", productionYear := "",
        usefulLife := some 0, trainingValue := "",
        finalValue := some (stockpileDepreciation 10000 0 2023) } := rfl
  refine ⟨rfl, rfl, rfl, rfl, scenario_money, ?_, ?_, ?_, ?_, ?_, ?_, ?_⟩
    <;> rw [scenario_parse_eq, hmerge]
  rw [hsd]
